import Mathlib

/-!
Verification development for the NSE-BSE MCP server's document retrieval
and response-limiting subsystems.

The model below is a shallow embedding of two source modules:
* `src/utils/response-limiter.ts` (word counting, truncation, metadata,
  `limitResponse`);
* the document utilities (`downloadFile`, `downloadAndExtract`,
  `extractPdfText`, `readDocumentPages`).

JavaScript strings are modelled as `List Char` (`Str`); JSON-like values as
the inductive `JValue`; `JSON.stringify(v, null, 2)` as `pretty`; the
filesystem as an association list from paths to file contents; the network
and the PDF parser as explicit oracles in an `Env` record.  JavaScript
truthiness of optional numeric / string / boolean arguments is modelled
explicitly where the source relies on it (`x || d`, `if (x)`).
-/

/-- JavaScript strings are modelled as lists of characters. -/
abbrev Str := List Char

/-- Embed a Lean string literal into the model's string type. -/
def str (s : String) : Str := s.data

/-- One token accumulator step of splitting a string on whitespace runs.
Models `text.trim().split(/\s+/)` restricted to its non-empty tokens:
the result is the list of maximal whitespace-free runs of the input. -/
def splitWsAux : Str → Str → List Str
  | [], acc => if acc.isEmpty then [] else [acc.reverse]
  | c :: cs, acc =>
    if c.isWhitespace then
      if acc.isEmpty then splitWsAux cs [] else acc.reverse :: splitWsAux cs []
    else
      splitWsAux cs (c :: acc)

/-- The whitespace-separated tokens of a string. -/
def splitWs (cs : Str) : List Str := splitWsAux cs []

/-- `countWords` from response-limiter.ts: `text.trim().split(/\s+/).length`.
On a blank string the JavaScript split yields `[""]` (length 1), hence the
`max 1`. -/
def countWordsL (cs : Str) : Nat := max 1 (splitWs cs).length

/-- Decimal digits of a natural number (the rendering used by JS template
interpolation of an integer-valued number).  Fuel-structured so that it
reduces inside the kernel; `n + 1` units of fuel always suffice. -/
def natCharsAux : Nat → Nat → Str → Str
  | 0, _, acc => acc
  | fuel + 1, n, acc =>
    let acc2 := Char.ofNat (48 + n % 10) :: acc
    if n < 10 then acc2 else natCharsAux fuel (n / 10) acc2

def natChars (n : Nat) : Str := natCharsAux (n + 1) n []

/-- Decimal rendering of an integer. -/
def intChars (i : Int) : Str :=
  if i < 0 then '-' :: natChars i.natAbs else natChars i.natAbs

/-- `truncateToWords` from response-limiter.ts: keep the first `maxWords`
whitespace-separated words, join with single spaces, and append the
truncation marker naming the number of words dropped. -/
def wsJoin : List Str → Str
  | [] => []
  | [t] => t
  | t :: ts => t ++ ' ' :: wsJoin ts

/-- The truncation marker appended by `truncateToWords`. -/
def truncMarker (remaining : Nat) : Str :=
  str "\n\n[... " ++ natChars remaining ++
    str " more words truncated. Use filters to get specific data.]"

def truncateToWordsL (text : Str) (maxWords : Nat) : Str :=
  let words := splitWs text
  if words.length ≤ maxWords then text
  else wsJoin (words.take maxWords) ++ truncMarker (words.length - maxWords)

/-- JSON-like values (the `any` data flowing through the limiter).
Numbers are modelled as integers. -/
inductive JValue where
  | null : JValue
  | bool : Bool → JValue
  | num : Int → JValue
  | str : Str → JValue
  | arr : List JValue → JValue
  | obj : List (Str × JValue) → JValue

/-- JSON string escaping for one character (the escapes `JSON.stringify`
emits). -/
def escChar (c : Char) : Str :=
  if c = '"' then ['\\', '"']
  else if c = '\\' then ['\\', '\\']
  else if c = '\n' then ['\\', 'n']
  else if c = '\r' then ['\\', 'r']
  else if c = '\t' then ['\\', 't']
  else if c = Char.ofNat 8 then ['\\', 'b']
  else if c = Char.ofNat 12 then ['\\', 'f']
  else if c.toNat < 32 then
    ['\\', 'u', '0', '0', Char.ofNat (48 + c.toNat / 16),
      if c.toNat % 16 < 10 then Char.ofNat (48 + c.toNat % 16)
      else Char.ofNat (87 + c.toNat % 16)]
  else [c]

def escList : Str → Str
  | [] => []
  | c :: cs => escChar c ++ escList cs

/-- Quoted, escaped JSON string literal. -/
def quoteStr (s : Str) : Str := '"' :: escList s ++ ['"']

/-- The two-space indentation prefix at nesting depth `d`. -/
def indentChars (d : Nat) : Str := List.replicate (2 * d) ' '

mutual
/-- `JSON.stringify(v, null, 2)` rendered at nesting depth `d`. -/
def prettyV : JValue → Nat → Str
  | .null, _ => str "null"
  | .bool true, _ => str "true"
  | .bool false, _ => str "false"
  | .num i, _ => intChars i
  | .str s, _ => quoteStr s
  | .arr [], _ => ['[', ']']
  | .arr (x :: xs), d =>
      '[' :: '\n' :: prettyItems (x :: xs) (d + 1) ++
        '\n' :: indentChars d ++ [']']
  | .obj [], _ => ['\x7b', '\x7d']
  | .obj (f :: fs), d =>
      '\x7b' :: '\n' :: prettyFields (f :: fs) (d + 1) ++
        '\n' :: indentChars d ++ ['\x7d']

/-- Array elements, each on its own indented line, joined by `",\n"`. -/
def prettyItems : List JValue → Nat → Str
  | [], _ => []
  | x :: xs, d =>
      indentChars d ++ prettyV x d ++
        (match xs with | [] => [] | _ :: _ => [',', '\n']) ++ prettyItems xs d

/-- Object entries `"key": value`, each on its own indented line. -/
def prettyFields : List (Str × JValue) → Nat → Str
  | [], _ => []
  | (k, v) :: fs, d =>
      indentChars d ++ quoteStr k ++ ':' :: ' ' :: prettyV v d ++
        (match fs with | [] => [] | _ :: _ => [',', '\n']) ++ prettyFields fs d
end

/-- `JSON.stringify(data, null, 2)`. -/
def pretty (v : JValue) : Str := prettyV v 0

/-- Compact `JSON.stringify` of a string array (used by the `_instructions`
hint, which stringifies the suggested-fields list without indentation). -/
def compactStrArr : List Str → Str
  | [] => ['[', ']']
  | s :: ss => '[' :: quoteStr s ++
      (ss.map (fun t => ',' :: quoteStr t)).flatten ++ [']']

/-! ## Response limiter (`src/utils/response-limiter.ts`) -/

def MAX_WORDS : Nat := 3500
def CHARS_PER_WORD : Nat := 5
def MAX_CHARS : Nat := MAX_WORDS * CHARS_PER_WORD

/-- The caller-supplied filter options (`LimitOptions`). -/
structure LimitOptions where
  maxItems : Option Nat := none
  fields : Option (List Str) := none
  summary : Option Bool := none

/-- JS truthiness of `options.maxItems || options.fields || options.summary`:
a present array is truthy even when empty; a numeric 0 and a `false` flag are
falsy. -/
def LimitOptions.hasFilters (o : LimitOptions) : Bool :=
  (match o.maxItems with | some n => n != 0 | none => false) ||
    o.fields.isSome || o.summary.getD false

def lookupField (kvs : List (Str × JValue)) (f : Str) : Option JValue :=
  (kvs.find? (fun kv => kv.1 == f)).map (·.2)

/-- Field projection of one array element (`limitArrayData`'s inner map):
non-objects pass through unchanged; objects keep only the listed fields, in
the order of the field list. -/
def projectItem (fieldsL : List Str) (item : JValue) : JValue :=
  match item with
  | .obj kvs =>
      .obj (fieldsL.filterMap (fun f => (lookupField kvs f).map (fun v => (f, v))))
  | .arr _ => .obj []
  | v => v

/-- `limitArrayData`: apply the item cap (skipped when the cap is 0, which is
falsy in JS), then the field projection. -/
def limitArrayData (data : List JValue) (options : LimitOptions) : List JValue :=
  if data.isEmpty then data
  else
    let r1 := match options.maxItems with
      | some m => if 0 < m then data.take m else data
      | none => data
    match options.fields with
    | some fl => if 0 < fl.length ∧ 0 < r1.length then r1.map (projectItem fl) else r1
    | none => r1

def typeofStr : JValue → Str
  | .null => str "object"
  | .bool _ => str "boolean"
  | .num _ => str "number"
  | .str _ => str "string"
  | .arr _ => str "object"
  | .obj _ => str "object"

/-- `extractSchema`: per-field type inference from the first element of an
array, or top-level key typing for a record (where array-valued fields also
record their length).  A `for … in` over an array value enumerates its index
keys. -/
def extractSchema : JValue → Option JValue
  | .arr (x :: _) =>
    (match x with
     | .obj kvs =>
         some (.obj (kvs.map (fun kv =>
           (kv.1, JValue.str (match kv.2 with | .arr _ => str "array" | v => typeofStr v)))))
     | .arr l =>
         some (.obj ((l.enum.map (fun p => (natChars p.1, p.2))).map (fun kv =>
           (kv.1, JValue.str (match kv.2 with | .arr _ => str "array" | v => typeofStr v)))))
     | _ => none)
  | .arr [] => some (.obj [])
  | .obj kvs =>
      some (.obj (kvs.map (fun kv =>
        (kv.1, match kv.2 with
          | .arr l => JValue.obj [(str "type", .str (str "array")), (str "length", .num l.length)]
          | v => JValue.str (typeofStr v)))))
  | _ => none

/-- `getAvailableFields`: keys of the first element of an array, or of the
record itself. -/
def getAvailableFields : JValue → Option (List Str)
  | .arr (x :: _) =>
    (match x with
     | .obj kvs => some (kvs.map (·.1))
     | .arr l => some ((List.range l.length).map natChars)
     | _ => none)
  | .arr [] => some []
  | .obj kvs => some (kvs.map (·.1))
  | _ => none

/-- The sample embedded in the metadata: first 3 array elements or first 5
record fields. -/
def sampleOf : JValue → Option JValue
  | .arr l => some (.arr (l.take 3))
  | .obj kvs => some (.obj (kvs.take 5))
  | _ => none

structure RecommendedFilters where
  maxItems : Nat
  suggestedFields : Option (List Str)
deriving DecidableEq

structure ResponseMetadata where
  totalItems : Option Nat
  totalWords : Nat
  estimatedTokens : Nat
  availableFields : Option (List Str)
  schema : Option JValue
  sampleData : Option JValue
  exceedsLimit : Bool
  recommendedFilters : Option RecommendedFilters

/-- Bit length of a natural number (fuel-structural so it reduces in the
kernel; fuel 128 covers every value the pipeline can produce, far beyond
the 2^32 bound on a JS array length). -/
def bitLenAux : Nat → Nat → Nat
  | 0, _ => 0
  | fuel + 1, n => if n = 0 then 0 else bitLenAux fuel (n / 2) + 1

def bitLen (n : Nat) : Nat := bitLenAux 128 n

/-- Round the positive rational `p / q` to a binary64 value, IEEE
round-to-nearest, ties to even: the result `(m, e)` denotes `m * 2 ^ e`
with `2 ^ 52 ≤ m < 2 ^ 53` (our magnitudes never reach the overflow or
subnormal ranges). -/
def rne53 (p q : Nat) : Nat × Int :=
  let d0 : Int := (bitLen p : Int) - (bitLen q : Int)
  let d : Int := if (if 0 ≤ d0 then q * 2 ^ d0.toNat ≤ p else q ≤ p * 2 ^ (-d0).toNat)
    then d0 else d0 - 1
  let e : Int := d - 52
  let nd : Nat × Nat := if 0 ≤ e then (p, q * 2 ^ e.toNat) else (p * 2 ^ (-e).toNat, q)
  let m0 := nd.1 / nd.2
  let r := nd.1 % nd.2
  let m := if nd.2 < 2 * r then m0 + 1 else if 2 * r < nd.2 then m0 else m0 + m0 % 2
  if m = 2 ^ 53 then (2 ^ 52, e + 1) else (m, e)

/-- `Math.floor` of a binary64 value `(m, e)`. -/
def floorDb : Nat × Int → Nat
  | (m, e) => if 0 ≤ e then m * 2 ^ e.toNat else m / 2 ^ (-e).toNat

/-- `Math.floor(MAX_WORDS / (w / 3))` computed exactly as the program does
in binary64: `w` and `MAX_WORDS` are integers (exact doubles), `w / 3`
rounds once, the outer division rounds once, then the floor is exact.
Diverges from the exact rational `MAX_WORDS * 3 / w` at e.g.
`w = 25, 50, 100` (419/209/104 versus 420/210/105), because `w / 3` rounds
up there and drags the quotient just below the integer. -/
def jsMaxItems (w : Nat) : Nat :=
  let wpi := rne53 w 3
  let q := if 0 ≤ wpi.2 then rne53 MAX_WORDS (wpi.1 * 2 ^ wpi.2.toNat)
           else rne53 (MAX_WORDS * 2 ^ (-wpi.2).toNat) wpi.1
  floorDb q

/-- `createResponseMetadata`.  The source computes
`wordsPerItem = countWords(sampleStr) / 3` with JS float division and
`maxItems = Math.floor(MAX_WORDS / wordsPerItem)`; `jsMaxItems` performs
exactly this binary64 computation.  `estimatedTokens =
Math.ceil(wordCount * 1.3)` is modelled as `ceil (13 * wordCount / 10)`. -/
def createResponseMetadata (data : JValue) (wordCount : Nat) : ResponseMetadata :=
  let exceedsLimit := MAX_WORDS < wordCount
  let availableFields := getAvailableFields data
  let recommendedFilters :=
    match data with
    | .arr (x :: xs) =>
        if MAX_WORDS < wordCount then
          let wSample := countWordsL (pretty (.arr ((x :: xs).take 3)))
          some { maxItems := max 10 (jsMaxItems wSample),
                 suggestedFields := availableFields.map (·.take 7) }
        else none
    | _ => none
  { totalItems := match data with | .arr l => some l.length | _ => none,
    totalWords := wordCount,
    estimatedTokens := (13 * wordCount + 9) / 10,
    availableFields,
    schema := extractSchema data,
    sampleData := sampleOf data,
    exceedsLimit,
    recommendedFilters }

def joinWith (sep : Str) : List Str → Str
  | [] => []
  | [t] => t
  | t :: ts => t ++ sep ++ joinWith sep ts

/-- `createArraySummary`: item count, field names, and the first 3 items
serialized in full. -/
def createArraySummary (data : List JValue) : Str :=
  if data.isEmpty then str "No data available"
  else
    let fieldsTxt := match data.head? with
      | some (.obj kvs) => joinWith (str ", ") (kvs.map (·.1))
      | some (.arr l) => joinWith (str ", ") ((List.range l.length).map natChars)
      | _ => str "N/A"
    str "Total items: " ++ natChars data.length ++
      str "\nAvailable fields: " ++ fieldsTxt ++
      str "\n\nFirst 3 items:\n" ++ pretty (.arr (data.take 3))

def optField (k : Str) (v : Option JValue) : List (Str × JValue) :=
  match v with | some x => [(k, x)] | none => []

def rfToJ (r : RecommendedFilters) : JValue :=
  .obj ([(str "maxItems", .num r.maxItems)] ++
    optField (str "suggestedFields")
      (r.suggestedFields.map (fun l => .arr (l.map JValue.str))))

/-- The metadata object as it appears in the JSON payload
(`JSON.stringify` omits `undefined`-valued fields). -/
def metaToJ (m : ResponseMetadata) : JValue :=
  .obj (optField (str "totalItems") (m.totalItems.map (fun n => .num n)) ++
    [(str "totalWords", .num m.totalWords),
     (str "estimatedTokens", .num m.estimatedTokens)] ++
    optField (str "availableFields")
      (m.availableFields.map (fun l => .arr (l.map JValue.str))) ++
    optField (str "schema") m.schema ++
    optField (str "sampleData") m.sampleData ++
    [(str "exceedsLimit", .bool m.exceedsLimit)] ++
    optField (str "recommendedFilters") (m.recommendedFilters.map rfToJ))

def totalItemsTxt : Option Nat → Str
  | some n => if n = 0 then str "N/A" else natChars n
  | none => str "N/A"

def instructionsTxt (m : ResponseMetadata) : Str :=
  match m.recommendedFilters with
  | some rf =>
      str "Recommended: Use max_items=" ++ natChars rf.maxItems ++
        str " or fields=" ++
        (match rf.suggestedFields with
         | some l => compactStrArr l
         | none => str "undefined")
  | none => str "Use max_items, fields, or summary parameters to filter the response."

/-- The record branch of `limitResponse`: every top-level field holding an
array longer than 10 elements is cut to its first 10, and a
`<key>_truncated` marker field is appended at the end of the record (JS
object insertion order: updated keys keep their place, added keys go
last). -/
def truncRecordFields (kvs : List (Str × JValue)) : List (Str × JValue) :=
  kvs.map (fun kv => match kv.2 with
    | .arr l => if 10 < l.length then (kv.1, JValue.arr (l.take 10)) else kv
    | _ => kv) ++
  kvs.filterMap (fun kv => match kv.2 with
    | .arr l => if 10 < l.length then
        some (kv.1 ++ str "_truncated",
          JValue.str (str "Showing 10 of " ++ natChars l.length ++ str " items"))
      else none
    | _ => none)

def truncArrayKeys (kvs : List (Str × JValue)) : List Str :=
  kvs.filterMap (fun kv => match kv.2 with
    | .arr l => if 10 < l.length then some kv.1 else none
    | _ => none)

/-- `limitResponse`'s result record. -/
structure LimitedResponse where
  data : JValue
  truncated : Bool
  message : Option Str := none
  metadata : Option ResponseMetadata := none

/-- The final safety net of `limitResponse`: re-serialize the limited value
and hard-truncate the JSON text when it still exceeds the ceiling. -/
def finishLimit (limitedData : JValue) (message : Str) : LimitedResponse :=
  let jsonStr := pretty limitedData
  if MAX_WORDS < countWordsL jsonStr then
    { data := .str (truncateToWordsL jsonStr MAX_WORDS), truncated := true,
      message := some (if message.isEmpty then
        str "Response truncated to 3500 words. Use filters to get specific data."
        else message) }
  else
    { data := limitedData, truncated := true,
      message := some (if message.isEmpty then
        str "Response limited to prevent data overflow" else message) }

/-- The substituted payload of the no-filter branch: the metadata object plus
the `_message` / `_instructions` hints. -/
def metadataPayload (metadata : ResponseMetadata) (wordCount : Nat) : JValue :=
  .obj [(str "_metadata", metaToJ metadata),
    (str "_message", .str (str "Response is too large (" ++ natChars wordCount ++
      str " words, ~" ++ natChars metadata.estimatedTokens ++
      str " tokens). Please apply filters to get specific data.")),
    (str "_instructions", .str (instructionsTxt metadata))]

/-- `limitResponse` (the Response Governor's entry point). -/
def limitResponse (data : JValue) (options : LimitOptions) : LimitedResponse :=
  match data with
  | .null => { data := .null, truncated := false }
  | data =>
    let wordCount := countWordsL (pretty data)
    if wordCount ≤ MAX_WORDS then { data := data, truncated := false }
    else if !options.hasFilters then
      let metadata := createResponseMetadata data wordCount
      { data := metadataPayload metadata wordCount,
        truncated := true,
        message := some (str "Response too large. Returning metadata. Total: " ++
          totalItemsTxt metadata.totalItems ++ str " items, " ++
          natChars wordCount ++ str " words."),
        metadata := some metadata }
    else
      match data with
      | .arr xs =>
        if options.summary.getD false then
          { data := .str (createArraySummary xs), truncated := true,
            message := some (str "Response too large (" ++ natChars wordCount ++
              str " words). Showing summary. Use maxItems and fields filters to get specific data.") }
        else
          let sampleSize := min 3 xs.length
          let wSample := countWordsL (pretty (.arr (xs.take sampleSize)))
          let computedMax := MAX_WORDS * sampleSize / wSample
          let effMax := match options.maxItems with
            | some m => if m = 0 then computedMax else m
            | none => computedMax
          let limited := limitArrayData xs { maxItems := some effMax, fields := options.fields }
          finishLimit (.arr limited)
            (str "Response limited: Showing " ++ natChars limited.length ++
              str " of " ++ natChars xs.length ++ str " items. " ++
              (match options.fields with
               | some fl => str "Fields: " ++ joinWith (str ", ") fl ++ str ". "
               | none => []) ++
              str "Use maxItems and fields parameters to customize.")
      | .obj kvs =>
          finishLimit (.obj (truncRecordFields kvs))
            (if (truncArrayKeys kvs).isEmpty then []
             else str "Large arrays truncated: " ++ joinWith (str ", ") (truncArrayKeys kvs) ++
               str ". Use specific queries to get complete data.")
      | d => finishLimit d []

/-- The text `formatLimitedResponse` serializes for the wire: a string
payload is used verbatim, any other value is `JSON.stringify`ed. -/
def payloadChars : JValue → Str
  | .str s => s
  | v => pretty v

def objLookup : JValue → Str → Option JValue
  | .obj kvs, k => (kvs.find? (fun kv => kv.1 == k)).map (·.2)
  | _, _ => none

/-! ## Document utilities (the document-tools module)

The filesystem is an association list from full paths to file contents;
the network, the `unzip` command and the `pdf-parse` library are oracles
carried in an `Env`.  A download counter in `St` counts the entry points'
invocations of `downloadFile`. -/

def downloadDir : Str := str "downloads/documents"

/-- `path.basename`: the part after the last `/`. -/
def basenameC (p : Str) : Str := (p.reverse.takeWhile (fun c => c ≠ '/')).reverse

/-- `path.extname` on the basename: from the last `.` on, empty when there is
no dot or the only dot starts the name. -/
def extnameC (p : Str) : Str :=
  let b := basenameC p
  let afterDot := b.reverse.takeWhile (fun c => c ≠ '.')
  if afterDot.length = b.length then []
  else if afterDot.length + 1 = b.length then []
  else '.' :: afterDot.reverse

def lowerStr (s : Str) : Str := s.map Char.toLower

/-- The pathname component of a URL: drop `scheme://host`, stop at a query or
fragment. -/
def afterSchemeAux : Str → Str
  | ':' :: '/' :: '/' :: rest => rest
  | _ :: cs => afterSchemeAux cs
  | [] => []

def urlPathname (u : Str) : Str :=
  ((afterSchemeAux u).dropWhile (fun c => c ≠ '/')).takeWhile
    (fun c => c ≠ '?' && c ≠ '#')

/-- The filename `downloadAndExtract` derives from a URL (`'document'` when
the pathname has an empty basename). -/
def urlFilename (u : Str) : Str :=
  let b := basenameC (urlPathname u)
  if b.isEmpty then str "document" else b

/-- `path.basename(p, suffix)`: basename with a trailing suffix removed. -/
def basenameStrip (p suffix : Str) : Str :=
  let b := basenameC p
  if suffix.isSuffixOf b then b.take (b.length - suffix.length) else b

/-- The filesystem: full path ↦ file contents. -/
abbrev FS := List (Str × Str)

def fsLookup (fs : FS) (p : Str) : Option Str :=
  (fs.find? (fun e => e.1 == p)).map (·.2)

def fsExists (fs : FS) (p : Str) : Bool := (fsLookup fs p).isSome

def fsInsert (fs : FS) (p c : Str) : FS :=
  (p, c) :: fs.filter (fun e => e.1 != p)

def fsErase (fs : FS) (p : Str) : FS := fs.filter (fun e => e.1 != p)

/-- `getAllFiles`: every file whose path lies under the directory. -/
def getAllFilesFS (fs : FS) (dir : Str) : List Str :=
  (fs.map (·.1)).filter (fun p => (dir ++ [ '/' ]).isPrefixOf p)

/-- One event on the HTTP response / file stream during a download. -/
inductive DlEvent where
  | chunk : Str → DlEvent
  | streamError : Str → DlEvent
  | timeout : DlEvent
deriving DecidableEq

/-- A network response: status, redirect target, advertised content length,
and the stream events that follow. -/
structure NetResponse where
  status : Nat
  location : Option Str := none
  contentLength : Option Nat := none
  events : List DlEvent := []
deriving DecidableEq

/-- The text blocks `pdf-parse` produces: per-page texts plus the whole-file
text. -/
structure PdfDoc where
  pages : List Str
  text : Str
deriving DecidableEq

/-- External collaborators: the network, the PDF parser (keyed by file
contents; `.error` models a parser throw), and zip extraction (entries as
relative path / content pairs; `.error` models both extractors failing). -/
structure Env where
  net : Str → Option NetResponse
  pdf : Str → Except Str PdfDoc
  unzip : Str → Except Str (List (Str × Str))

/-- The streaming phase of `downloadFile`: the write stream has created the
file; each chunk is appended and the byte ceiling re-checked (breach ⇒ the
file is unlinked); a file-stream error unlinks the file; the 60-second
timeout destroys the request *without* removing the file. -/
def runStream (filepath : Str) (maxBytes : Nat) :
    List DlEvent → Str → FS → Except Str Unit × FS
  | [], _, fs => (.ok (), fs)
  | .chunk d :: rest, acc, fs =>
      let acc2 := acc ++ d
      let fs2 := fsInsert fs filepath acc2
      if maxBytes < acc2.length then
        (.error (str "File exceeded size limit during download"), fsErase fs2 filepath)
      else runStream filepath maxBytes rest acc2 fs2
  | .streamError _ :: _, _, fs => (.error (str "stream error"), fsErase fs filepath)
  | .timeout :: _, _, fs => (.error (str "Download timeout"), fs)

/-- Fixed-point rendering of `maxSizeMB`-relative byte counts:
`(bytes / 1024 / 1024).toFixed(2)` modelled with exact rounding. -/
def mbFixed2 (bytes : Nat) : Str :=
  let r := (bytes * 100 + 524288) / 1048576
  natChars (r / 100) ++ '.' ::
    (if r % 100 < 10 then '0' :: natChars (r % 100) else natChars (r % 100))

def httpErrMsg (status : Nat) : Str :=
  str "Failed to download: HTTP " ++ natChars status

def tooLargeMsg (contentLength maxSizeMB : Nat) : Str :=
  str "File too large: " ++ mbFixed2 contentLength ++ str " MB (max: " ++
    natChars maxSizeMB ++ str " MB)"

/-- `downloadFile`: follow 301/302 redirects (with fuel, the source recurses
unboundedly), reject non-200 statuses, reject up front when the advertised
content length exceeds the byte ceiling, then stream to disk. -/
def downloadFile (env : Env) : Nat → Str → Str → Nat → FS → Except Str Unit × FS
  | 0, _, _, _, fs => (.error (str "too many redirects"), fs)
  | fuel + 1, url, filepath, maxSizeMB, fs =>
    match env.net url with
    | none => (.error (str "request error"), fs)
    | some r =>
      if r.status = 301 ∨ r.status = 302 then
        match r.location with
        | some loc => downloadFile env fuel loc filepath maxSizeMB fs
        | none => (.error (httpErrMsg r.status), fs)
      else if r.status ≠ 200 then (.error (httpErrMsg r.status), fs)
      else
        let maxBytes := maxSizeMB * 1024 * 1024
        if maxBytes < (r.contentLength.getD 0) then
          (.error (tooLargeMsg (r.contentLength.getD 0) maxSizeMB), fs)
        else
          runStream filepath maxBytes r.events [] (fsInsert fs filepath [])

def redirectFuel : Nat := 20

/-- Truthiness of an optional numeric argument (`x || d`). -/
def orDefault (o : Option Nat) (d : Nat) : Nat :=
  match o with
  | some n => if n = 0 then d else n
  | none => d

def truthyN (o : Option Nat) : Bool :=
  match o with | some n => n != 0 | none => false

structure PageOptions where
  startPage : Option Nat := none
  endPage : Option Nat := none
  pages : Option (List Nat) := none

/-- `extractPdfText`'s result triple. -/
structure ExtractResult where
  text : Str
  totalPages : Nat
  extractedPages : Str
deriving DecidableEq

/-- One extracted page with its header (skipped when the index is out of
bounds, mirroring the `if (textResult.pages[pageIndex])` guard). -/
def renderPage (pages : List Str) (n : Nat) : Str :=
  match pages.get? (n - 1) with
  | some t => str "\n\n--- PAGE " ++ natChars n ++ str " ---\n\n" ++ t
  | none => []

/-- The ascending page numbers `start..end`. -/
def rangePages (s e : Nat) : List Nat := List.range' s (e + 1 - s)

/-- `extractPdfText`: parse the file, resolve the page selector (explicit
list / clamped range / all pages), and prepend the metadata banner.  A
parser throw (or an unreadable file) is downgraded to a degraded result with
`totalPages = 0` and descriptor `"error"`. -/
def extractPdfText (env : Env) (fs : FS) (filepath : Str) (po : PageOptions) :
    ExtractResult :=
  let degraded := fun (msg : Str) =>
    { text := str "PDF file: " ++ basenameC filepath ++
        str "\n\nError extracting text: " ++ msg ++
        str "\n\nFile location: " ++ filepath,
      totalPages := 0, extractedPages := str "error" : ExtractResult }
  match fsLookup fs filepath with
  | none => degraded (str "ENOENT: no such file or directory")
  | some content =>
    match env.pdf content with
    | .error msg => degraded msg
    | .ok doc =>
      let totalPages := doc.pages.length
      let body :=
        match po.pages with
        | some ps =>
          if ps.length ≠ 0 then
            let validPages := ps.filter (fun p => 1 ≤ p ∧ p ≤ totalPages)
            (joinWith (str ", ") (validPages.map natChars),
             (validPages.map (renderPage doc.pages)).flatten)
          else if truthyN po.startPage || truthyN po.endPage then
            let s := max 1 (orDefault po.startPage 1)
            let e := min totalPages (orDefault po.endPage totalPages)
            (natChars s ++ '-' :: natChars e,
             ((rangePages s e).map (renderPage doc.pages)).flatten)
          else (str "1-" ++ natChars totalPages, doc.text)
        | none =>
          if truthyN po.startPage || truthyN po.endPage then
            let s := max 1 (orDefault po.startPage 1)
            let e := min totalPages (orDefault po.endPage totalPages)
            (natChars s ++ '-' :: natChars e,
             ((rangePages s e).map (renderPage doc.pages)).flatten)
          else (str "1-" ++ natChars totalPages, doc.text)
      { text := str "PDF: " ++ basenameC filepath ++ '\n' ::
          str "Total Pages: " ++ natChars totalPages ++
          str " | Extracted Pages: " ++ body.1 ++
          str " | Text Length: " ++ natChars body.2.length ++
          str " characters\n\n" ++ List.replicate 80 '=' ++ '\n' :: body.2,
        totalPages, extractedPages := body.1 }

def sep80 : Str := List.replicate 80 '='

/-- One entry of `readExtractedFiles`: a file-name-headed separator block
followed by the file's text (50,000-character cap), its PDF extraction, or
an opaque-binary marker. -/
def readOneExtracted (env : Env) (fs : FS) (file : Str) : Str :=
  let ext := lowerStr (extnameC file)
  '\n' :: sep80 ++ '\n' :: str "File: " ++ basenameC file ++ '\n' :: sep80 ++
    str "\n\n" ++
  (if [str ".txt", str ".csv", str ".json", str ".xml", str ".html",
       str ".md"].contains ext then
    match fsLookup fs file with
    | some c =>
        if 50000 < c.length then
          c.take 50000 ++ str "\n\n[Content truncated - file too large]\n"
        else c ++ ['\n']
    | none => str "[Error reading file: ENOENT]\n"
  else if ext = str ".pdf" then
    let r := extractPdfText env fs file {}
    if 50000 < r.text.length then
      r.text.take 50000 ++ str "\n\n[Content truncated - file too large]\n"
    else r.text ++ ['\n']
  else str "[Binary file - " ++ ext ++ str "]\n")

def readExtractedFiles (env : Env) (fs : FS) (files : List Str) : Str :=
  str "Extracted " ++ natChars files.length ++ str " file(s):\n\n" ++
    (files.map (readOneExtracted env fs)).flatten

/-- `extractZip` via the `unzip` oracle: on success the entries are written
under the extraction directory; on failure (both `unzip` and the PowerShell
fallback) the combined error is thrown. -/
def extractZipM (env : Env) (fs : FS) (zipPath extractPath : Str) :
    Except Str (List Str × FS) :=
  match env.unzip ((fsLookup fs zipPath).getD []) with
  | .ok entries =>
      let fs' := entries.foldl (fun acc e => fsInsert acc (extractPath ++ '/' :: e.1) e.2) fs
      .ok (getAllFilesFS fs' extractPath, fs')
  | .error _ =>
      .error (str "ZIP extraction failed. Please install unzip or use Windows with PowerShell.")

structure DocMetadata where
  filename : Str
  size : Nat
  type : Str
  pages : Option Nat := none
  extractedPages : Option Str := none
deriving DecidableEq

/-- `DownloadResult` from the document-tools module. -/
structure DownloadResult where
  success : Bool
  content : Option Str := none
  files : Option (List Str) := none
  error : Option Str := none
  metadata : Option DocMetadata := none
deriving DecidableEq

/-- Mutable world state threaded through the entry points: the filesystem
plus a counter of the entry points' `downloadFile` invocations. -/
structure St where
  fs : FS
  fetches : Nat
deriving DecidableEq

def cachedNote (fileExists : Bool) : Str :=
  if fileExists then str "\n\n[Note: Used cached file - already downloaded]" else []

def unsupportedMsg (ext : Str) : Str :=
  str "Unsupported file type: " ++ ext ++
    str ". Supported: .pdf, .zip, .txt, .csv, .json, .xml, .html"

/-- `downloadAndExtract`: derive the destination path from the URL, reuse the
cached file when it exists (otherwise download), then dispatch on the
extension. -/
def downloadAndExtract (env : Env) (url : Str) (maxSizeMB : Nat)
    (po : PageOptions) (st : St) : DownloadResult × St :=
  let filename := urlFilename url
  let filepath := downloadDir ++ '/' :: filename
  match (if fsExists st.fs filepath then (Except.ok true, st)
         else match downloadFile env redirectFuel url filepath maxSizeMB st.fs with
           | (.ok _, fs') => (Except.ok false, { fs := fs', fetches := st.fetches + 1 })
           | (.error e, fs') => (Except.error e, { fs := fs', fetches := st.fetches + 1 })) with
  | (.error e, st') => ({ success := false, error := some e }, st')
  | (.ok fileExists, st') =>
    let size := ((fsLookup st'.fs filepath).getD []).length
    let ext := lowerStr (extnameC filename)
    if ext = str ".pdf" then
      let r := extractPdfText env st'.fs filepath po
      ({ success := true, content := some (r.text ++ cachedNote fileExists),
         metadata := some { filename := filename, size := size,
                            type := str "pdf", pages := some r.totalPages,
                            extractedPages := some r.extractedPages } },
       st')
    else if ext = str ".zip" then
      let extractPath := downloadDir ++ '/' ::
        basenameStrip filepath (str ".zip") ++ str "_extracted"
      match (if (getAllFilesFS st'.fs extractPath).isEmpty then
               extractZipM env st'.fs filepath extractPath
             else .ok (getAllFilesFS st'.fs extractPath, st'.fs)) with
      | .error e => ({ success := false, error := some e }, st')
      | .ok (extractedFiles, fs2) =>
          ({ success := true,
             content := some (readExtractedFiles env fs2 extractedFiles ++
               cachedNote fileExists),
             files := some extractedFiles,
             metadata := some { filename := filename, size := size, type := str "zip" } },
           { st' with fs := fs2 })
    else if [str ".txt", str ".csv", str ".json", str ".xml",
             str ".html"].contains ext then
      match fsLookup st'.fs filepath with
      | some c =>
          ({ success := true, content := some (c ++ cachedNote fileExists),
             metadata := some { filename := filename, size := size, type := str "text" } }, st')
      | none => ({ success := false,
                   error := some (str "ENOENT: no such file or directory") }, st')
    else
      ({ success := false, error := some (unsupportedMsg ext),
         metadata := some { filename := filename, size := size, type := str "unknown" } }, st')

/-- JS truthiness of an optional string argument (empty strings are falsy). -/
def optTruthyS : Option Str → Option Str
  | some (c :: cs) => some (c :: cs)
  | _ => none

/-- The cache-resolution phase of `readDocumentPages` (cases 1–3 of the
source): prefer the direct cached path, then a recursive basename search
under the cache root, then a download when a URL is available. -/
def resolveDoc (env : Env) (filename url : Option Str) (maxSizeMB : Nat)
    (st : St) : Except Str Str × St :=
  match optTruthyS filename with
  | some f =>
    let directPath := downloadDir ++ '/' :: f
    if fsExists st.fs directPath then (.ok directPath, st)
    else
      match (getAllFilesFS st.fs downloadDir).filter (fun p => basenameC p == f) with
      | p :: _ => (.ok p, st)
      | [] =>
        match optTruthyS url with
        | some u =>
          (match downloadFile env redirectFuel u directPath maxSizeMB st.fs with
           | (.ok _, fs') => (.ok directPath, { fs := fs', fetches := st.fetches + 1 })
           | (.error e, fs') => (.error e, { fs := fs', fetches := st.fetches + 1 }))
        | none => (.error (str "File not found in cache: " ++ f ++
            str ". Please provide a URL to download it."), st)
  | none =>
    match optTruthyS url with
    | some u =>
      let fp := downloadDir ++ '/' :: urlFilename u
      if fsExists st.fs fp then (.ok fp, st)
      else
        (match downloadFile env redirectFuel u fp maxSizeMB st.fs with
         | (.ok _, fs') => (.ok fp, { fs := fs', fetches := st.fetches + 1 })
         | (.error e, fs') => (.error e, { fs := fs', fetches := st.fetches + 1 }))
    | none => (.error (str "Either filename or url must be provided"), st)

/-- `readDocumentPages`: resolve a cached or freshly downloaded file, refuse
anything that is not a PDF, and extract the requested pages. -/
def readDocumentPages (env : Env) (filename url : Option Str)
    (po : PageOptions) (maxSizeMB : Nat) (st : St) : DownloadResult × St :=
  match resolveDoc env filename url maxSizeMB st with
  | (.error e, st') => ({ success := false, error := some e }, st')
  | (.ok filepath, st') =>
    let ext := lowerStr (extnameC filepath)
    if ext ≠ str ".pdf" then
      ({ success := false,
         error := some (str "This tool only supports PDF files. File type: " ++ ext) },
       st')
    else
      match fsLookup st'.fs filepath with
      | none => ({ success := false,
                   error := some (str "ENOENT: no such file or directory") }, st')
      | some c =>
        let r := extractPdfText env st'.fs filepath po
        ({ success := true, content := some r.text,
           metadata := some { filename := basenameC filepath, size := c.length,
                              type := str "pdf", pages := some r.totalPages,
                              extractedPages := some r.extractedPages } }, st')

/-! ## Word-splitting toolkit -/

lemma splitWsAux_push {c : Char} (hc : c.isWhitespace = false) (cs acc : Str) :
    splitWsAux (c :: cs) acc = splitWsAux cs (c :: acc) := by
  simp [splitWsAux, hc]

lemma splitWsAux_wsStep {c : Char} (hc : c.isWhitespace = true) (cs acc : Str) :
    splitWsAux (c :: cs) acc =
      if acc.isEmpty then splitWsAux cs [] else acc.reverse :: splitWsAux cs [] := by
  simp [splitWsAux, hc]

lemma splitWsAux_token {t : Str} (ht : ∀ c ∈ t, c.isWhitespace = false) :
    ∀ (rest acc : Str), splitWsAux (t ++ rest) acc = splitWsAux rest (t.reverse ++ acc) := by
  induction t with
  | nil => intro rest acc; simp
  | cons c cs ih =>
    intro rest acc
    rw [List.cons_append, splitWsAux_push (ht c (by simp)),
      ih (fun d hd => ht d (by simp [hd]))]
    simp

lemma splitWsAux_good :
    ∀ (cs acc : Str), (∀ c ∈ acc, c.isWhitespace = false) →
      ∀ t ∈ splitWsAux cs acc, t ≠ [] ∧ ∀ c ∈ t, c.isWhitespace = false := by
  intro cs
  induction cs with
  | nil =>
    intro acc hacc t ht
    cases acc with
    | nil => simp [splitWsAux] at ht
    | cons a as =>
      simp [splitWsAux] at ht
      subst ht
      exact ⟨by simp, fun c hc => hacc c (by simp at hc ⊢; tauto)⟩
  | cons c cs ih =>
    intro acc hacc t ht
    by_cases hw : c.isWhitespace = true
    · rw [splitWsAux_wsStep hw] at ht
      cases acc with
      | nil => exact ih [] (by simp) t (by simpa using ht)
      | cons a as =>
        simp only [List.isEmpty_cons, if_neg] at ht
        rcases List.mem_cons.1 ht with h1 | h2
        · subst h1
          exact ⟨by simp, fun d hd => hacc d (List.mem_reverse.1 hd)⟩
        · exact ih [] (by simp) t h2
    · have hw' : c.isWhitespace = false := by simpa using hw
      rw [splitWsAux_push hw'] at ht
      refine ih (c :: acc) ?_ t ht
      intro d hd
      rcases List.mem_cons.1 hd with h1 | h2
      · subst h1; exact hw'
      · exact hacc d h2

lemma splitWs_good (cs : Str) :
    ∀ t ∈ splitWs cs, t ≠ [] ∧ ∀ c ∈ t, c.isWhitespace = false :=
  splitWsAux_good cs [] (by simp)

lemma splitWsAux_append_wsEnd (p : Str) {c : Char} (hc : c.isWhitespace = true) :
    ∀ (acc rest : Str),
      splitWsAux ((p ++ [c]) ++ rest) acc = splitWsAux (p ++ [c]) acc ++ splitWsAux rest [] := by
  induction p with
  | nil =>
    intro acc rest
    simp only [List.nil_append, List.cons_append]
    rw [splitWsAux_wsStep hc, splitWsAux_wsStep hc]
    cases acc <;> simp [splitWsAux]
  | cons d p ih =>
    intro acc rest
    by_cases hd : d.isWhitespace = true
    · simp only [List.cons_append]
      rw [splitWsAux_wsStep hd, splitWsAux_wsStep hd]
      have ih0 := ih [] rest
      simp only [List.append_assoc, List.cons_append, List.nil_append] at ih0 ⊢
      cases acc <;> simp [ih0]
    · have hd' : d.isWhitespace = false := by simpa using hd
      simp only [List.cons_append]
      rw [splitWsAux_push hd', splitWsAux_push hd', ih]

lemma natCharsAux_wsfree :
    ∀ (fuel n : Nat) (acc : Str), (∀ c ∈ acc, c.isWhitespace = false) →
      ∀ c ∈ natCharsAux fuel n acc, c.isWhitespace = false := by
  intro fuel
  induction fuel with
  | zero => intro n acc hacc c hc; exact hacc c hc
  | succ f ih =>
    intro n acc hacc c hc
    have hacc2 : ∀ d ∈ Char.ofNat (48 + n % 10) :: acc, d.isWhitespace = false := by
      intro d hd
      rcases List.mem_cons.1 hd with h1 | h2
      · subst h1
        have h9 : n % 10 < 10 := Nat.mod_lt _ (by omega)
        interval_cases hmod : n % 10 <;> simp [hmod]
      · exact hacc d h2
    simp only [natCharsAux] at hc
    by_cases h : n < 10
    · rw [if_pos h] at hc
      exact hacc2 c hc
    · rw [if_neg h] at hc
      exact ih (n / 10) _ hacc2 c hc

lemma natChars_wsfree (n : Nat) : ∀ c ∈ natChars n, c.isWhitespace = false :=
  natCharsAux_wsfree (n + 1) n [] (by simp)

lemma natCharsAux_ne_nil :
    ∀ (fuel n : Nat) (acc : Str), acc ≠ [] → natCharsAux fuel n acc ≠ [] := by
  intro fuel
  induction fuel with
  | zero => intro n acc h; simpa [natCharsAux] using h
  | succ f ih =>
    intro n acc h
    simp only [natCharsAux]
    by_cases hn : n < 10
    · simp [hn]
    · rw [if_neg hn]
      exact ih (n / 10) _ (by simp)

lemma natChars_ne_nil (n : Nat) : natChars n ≠ [] := by
  unfold natChars
  simp only [natCharsAux]
  by_cases hn : n < 10
  · simp [hn]
  · rw [if_neg hn]
    exact natCharsAux_ne_nil _ _ _ (by simp)

lemma splitWsAux_wsJoin (ts : List Str)
    (h : ∀ t ∈ ts, t ≠ [] ∧ ∀ c ∈ t, c.isWhitespace = false) :
    ∀ {c : Char}, c.isWhitespace = true → ∀ (rest : Str),
      splitWsAux (wsJoin ts ++ c :: rest) [] = ts ++ splitWsAux (c :: rest) [] := by
  induction ts with
  | nil =>
    intro c hc rest
    simp [wsJoin]
  | cons t ts ih =>
    intro c hc rest
    have hgood := h t (by simp)
    have hrev : (t.reverse ++ ([] : Str)).isEmpty = false := by
      cases t with
      | nil => exact absurd rfl hgood.1
      | cons a as => simp
    cases ts with
    | nil =>
      show splitWsAux (wsJoin [t] ++ c :: rest) [] = [t] ++ splitWsAux (c :: rest) []
      have e2 : wsJoin [t] = t := rfl
      rw [e2, splitWsAux_token hgood.2, splitWsAux_wsStep hc rest (t.reverse ++ []),
        splitWsAux_wsStep hc rest ([] : Str), if_neg (by simpa using hgood.1), if_pos (by simp)]
      simp
    | cons t' ts' =>
      have e3 : wsJoin (t :: t' :: ts') = t ++ ' ' :: wsJoin (t' :: ts') := rfl
      rw [e3, List.append_assoc, splitWsAux_token hgood.2, List.cons_append,
        splitWsAux_wsStep (by decide : (' ').isWhitespace = true), if_neg (by simpa using hgood.1)]
      rw [ih (fun u hu => h u (by simp [hu])) hc rest]
      simp

/-- A run of `n` single-letter words separated by single spaces (proof-layer
helper for building large concrete values). -/
def bigWord (n : Nat) : Str := wsJoin (List.replicate n ['a'])

lemma bigWord_zero : bigWord 0 = [] := rfl

lemma bigWord_one : bigWord 1 = ['a'] := rfl

lemma bigWord_succ_succ (n : Nat) :
    bigWord (n + 2) = 'a' :: ' ' :: bigWord (n + 1) := by
  show wsJoin (List.replicate (n + 2) ['a']) = _
  rw [List.replicate_succ, List.replicate_succ]
  rfl

lemma escList_bigWord (n : Nat) : escList (bigWord n) = bigWord n := by
  cases n with
  | zero => rfl
  | succ m =>
    induction m with
    | zero => rfl
    | succ k ih =>
      rw [bigWord_succ_succ]
      show escChar 'a' ++ escList (' ' :: bigWord (k + 1)) = _
      show escChar 'a' ++ (escChar ' ' ++ escList (bigWord (k + 1))) = _
      rw [ih]
      rfl

lemma splitWsAux_bigWord (n : Nat) :
    ∀ (acc rest : Str),
      splitWsAux (bigWord (n + 2) ++ rest) acc =
        (acc.reverse ++ ['a']) :: (List.replicate n ['a'] ++ splitWsAux rest ['a']) := by
  induction n with
  | zero =>
    intro acc rest
    rw [bigWord_succ_succ]
    rw [List.cons_append, List.cons_append,
      splitWsAux_push (by decide : ('a').isWhitespace = false),
      splitWsAux_wsStep (by decide : (' ').isWhitespace = true)]
    rw [if_neg (by simp)]
    show _ :: splitWsAux (['a'] ++ rest) [] = _
    rw [splitWsAux_token (by decide : ∀ c ∈ ['a'], c.isWhitespace = false)]
    simp [bigWord_one]
  | succ k ih =>
    intro acc rest
    rw [bigWord_succ_succ]
    rw [List.cons_append, List.cons_append,
      splitWsAux_push (by decide : ('a').isWhitespace = false),
      splitWsAux_wsStep (by decide : (' ').isWhitespace = true)]
    rw [if_neg (by simp)]
    rw [ih [] rest]
    simp [List.replicate_succ]

lemma countWordsL_bigWord (n : Nat) :
    countWordsL (bigWord (n + 2)) = n + 2 := by
  have h := splitWsAux_bigWord n [] []
  rw [List.append_nil] at h
  have htail : splitWsAux ([] : Str) ['a'] = [['a']] := rfl
  rw [htail] at h
  unfold countWordsL splitWs
  rw [h]
  simp

lemma splitWs_truncMarker (r : Nat) :
    splitWs (truncMarker r) =
      [str "[...", natChars r, str "more", str "words", str "truncated.",
       str "Use", str "filters", str "to", str "get", str "specific", str "data.]"] := by
  have hm : truncMarker r =
      '\n' :: '\n' :: (['[', '.', '.', '.'] ++ (' ' :: (natChars r ++
        (' ' :: str "more words truncated. Use filters to get specific data.]")))) := by
    show str "\n\n[... " ++ natChars r ++
      str " more words truncated. Use filters to get specific data.]" = _
    have h1 : str "\n\n[... " = '\n' :: '\n' :: (['[', '.', '.', '.'] ++ [' ']) := by decide
    have h2 : str " more words truncated. Use filters to get specific data.]" =
        ' ' :: str "more words truncated. Use filters to get specific data.]" := by decide
    rw [h1, h2]
    simp
  unfold splitWs
  rw [hm, splitWsAux_wsStep (by decide), if_pos (by simp),
    splitWsAux_wsStep (by decide), if_pos (by simp),
    splitWsAux_token (by decide : ∀ c ∈ ['[', '.', '.', '.'], c.isWhitespace = false),
    splitWsAux_wsStep (by decide), if_neg (by simp),
    splitWsAux_token (natChars_wsfree r),
    splitWsAux_wsStep (by decide), if_neg (by simp [natChars_ne_nil r])]
  have htail : splitWsAux (str "more words truncated. Use filters to get specific data.]") [] =
      [str "more", str "words", str "truncated.", str "Use", str "filters",
       str "to", str "get", str "specific", str "data.]"] := by decide
  rw [htail]
  simp
  decide

/-- Word count of the output of `truncateToWords` when it truncates:
the `maxWords` kept words plus the 11 words of the marker. -/
lemma countWords_truncate (cs : Str) (m : Nat) (hm : 0 < m)
    (h : m < (splitWs cs).length) :
    countWordsL (truncateToWordsL cs m) = m + 11 := by
  have hgood : ∀ t ∈ (splitWs cs).take m, t ≠ [] ∧ ∀ c ∈ t, c.isWhitespace = false :=
    fun t ht => splitWs_good cs t (List.take_subset _ _ ht)
  have hmarker : truncMarker ((splitWs cs).length - m) =
      '\n' :: ('\n' :: (str "[... " ++ natChars ((splitWs cs).length - m) ++
        str " more words truncated. Use filters to get specific data.]")) := by
    show str "\n\n[... " ++ _ ++ _ = _
    have h1 : str "\n\n[... " = '\n' :: ('\n' :: str "[... ") := by decide
    rw [h1]
    simp
  unfold truncateToWordsL
  rw [if_neg (by omega)]
  have hsplit : splitWs (wsJoin ((splitWs cs).take m) ++
      truncMarker ((splitWs cs).length - m)) =
      (splitWs cs).take m ++ splitWs (truncMarker ((splitWs cs).length - m)) := by
    rw [hmarker]
    exact splitWsAux_wsJoin _ hgood (by decide) _
  show max 1 (splitWs (wsJoin ((splitWs cs).take m) ++
    truncMarker ((splitWs cs).length - m))).length = m + 11
  rw [hsplit, splitWs_truncMarker]
  simp only [List.length_append, List.length_take, List.length_cons]
  simp
  omega

lemma pretty_arr_bigWord (n : Nat) :
    pretty (JValue.arr [JValue.str (bigWord n)]) =
      '[' :: '\n' :: ' ' :: ' ' :: '"' :: (bigWord n ++ ('"' :: '\n' :: [']'])) := by
  have hi1 : indentChars 1 = [' ', ' '] := rfl
  have hi0 : indentChars 0 = [] := rfl
  simp [pretty, prettyV, prettyItems, quoteStr, escList_bigWord, hi1, hi0]

lemma splitWs_arr_bigWord (n : Nat) :
    splitWs (pretty (JValue.arr [JValue.str (bigWord (n + 2))])) =
      ['['] :: (['"', 'a'] :: (List.replicate n ['a'] ++ [['a', '"'], [']']])) := by
  rw [pretty_arr_bigWord]
  have c1 : ('[' : Char).isWhitespace = false := by decide
  have c2 : ('\n' : Char).isWhitespace = true := by decide
  have c3 : (' ' : Char).isWhitespace = true := by decide
  have c4 : ('"' : Char).isWhitespace = false := by decide
  show splitWsAux ('[' :: '\n' :: ' ' :: ' ' :: '"' ::
    (bigWord (n + 2) ++ ('"' :: '\n' :: [']']))) [] = _
  rw [splitWsAux_push c1, splitWsAux_wsStep c2, if_neg (by simp),
    splitWsAux_wsStep c3, if_pos List.isEmpty_nil, splitWsAux_wsStep c3, if_pos List.isEmpty_nil,
    splitWsAux_push c4, splitWsAux_bigWord n]
  rw [show splitWsAux ('"' :: '\n' :: [']']) ['a'] = [['a', '"'], [']']] from by decide]
  simp

lemma countWords_arr_bigWord (n : Nat) :
    countWordsL (pretty (JValue.arr [JValue.str (bigWord (n + 2))])) = n + 4 := by
  unfold countWordsL
  rw [splitWs_arr_bigWord]
  simp

/-! ## Claim theorems: the Response Governor -/

/-- C1: for every non-null value whose JSON serialization is within the
3500-word ceiling, `limitResponse` returns the value itself unmodified, with
`truncated = false` and no advisory message or metadata attached. -/
theorem governResponse_within_ceiling_identity (v : JValue) (opts : LimitOptions)
    (hnn : v ≠ JValue.null)
    (hw : countWordsL (pretty v) ≤ MAX_WORDS) :
    limitResponse v opts =
      { data := v, truncated := false, message := none, metadata := none } := by
  cases v with
  | null => exact absurd rfl hnn
  | bool b => simp [limitResponse, hw]
  | num i => simp [limitResponse, hw]
  | str s => simp [limitResponse, hw]
  | arr xs => simp [limitResponse, hw]
  | obj kvs => simp [limitResponse, hw]

theorem governResponse_within_ceiling_identity_witness :
    JValue.num 42 ≠ JValue.null ∧
      countWordsL (pretty (JValue.num 42)) ≤ MAX_WORDS ∧
      limitResponse (JValue.num 42) { maxItems := some 5 } =
        { data := JValue.num 42, truncated := false, message := none, metadata := none } :=
  ⟨fun h => JValue.noConfusion h, by decide,
    governResponse_within_ceiling_identity _ _ (fun h => JValue.noConfusion h) (by decide)⟩

lemma finishLimit_bounded (v : JValue) (msg : Str)
    (hv : ∀ s, v = JValue.str s → MAX_WORDS < countWordsL (pretty v)) :
    countWordsL (payloadChars (finishLimit v msg).data) ≤ MAX_WORDS + 11 := by
  by_cases h : MAX_WORDS < countWordsL (pretty v)
  · have hd : (finishLimit v msg).data = .str (truncateToWordsL (pretty v) MAX_WORDS) := by
      simp only [finishLimit]
      rw [if_pos h]
    rw [hd]
    have hlen : MAX_WORDS < (splitWs (pretty v)).length := by
      unfold countWordsL at h
      unfold MAX_WORDS at h ⊢
      omega
    show countWordsL (truncateToWordsL (pretty v) MAX_WORDS) ≤ _
    rw [countWords_truncate _ _ (by norm_num [MAX_WORDS]) hlen]
  · have hd : (finishLimit v msg).data = v := by
      simp only [finishLimit]
      rw [if_neg h]
    rw [hd]
    cases v with
    | str s => exact absurd (hv s rfl) h
    | null => show countWordsL (pretty JValue.null) ≤ _; omega
    | bool b => show countWordsL (pretty (JValue.bool b)) ≤ _; omega
    | num i => show countWordsL (pretty (JValue.num i)) ≤ _; omega
    | arr xs => show countWordsL (pretty (JValue.arr xs)) ≤ _; omega
    | obj kvs => show countWordsL (pretty (JValue.obj kvs)) ≤ _; omega

/-- C3 (amended): for every value exceeding the ceiling, governed with filter
options but not through the list-summary branch, the outgoing payload is
bounded by the 3500-word ceiling plus the 11-word truncation marker. -/
theorem governed_payload_bounded (data : JValue) (opts : LimitOptions)
    (hover : MAX_WORDS < countWordsL (pretty data))
    (hf : opts.hasFilters = true)
    (hs : opts.summary.getD false = false ∨ ∀ xs, data ≠ JValue.arr xs) :
    countWordsL (payloadChars (limitResponse data opts).data) ≤ MAX_WORDS + 11 := by
  cases data with
  | null =>
    have h1 : countWordsL (pretty JValue.null) = 1 := by decide
    rw [h1] at hover
    exact absurd hover (by norm_num [MAX_WORDS])
  | bool b =>
    simp only [limitResponse]
    rw [if_neg (by omega), if_neg (by simp [hf])]
    exact finishLimit_bounded _ _ (fun s hvs => JValue.noConfusion hvs)
  | num i =>
    simp only [limitResponse]
    rw [if_neg (by omega), if_neg (by simp [hf])]
    exact finishLimit_bounded _ _ (fun s hvs => JValue.noConfusion hvs)
  | str s0 =>
    simp only [limitResponse]
    rw [if_neg (by omega), if_neg (by simp [hf])]
    exact finishLimit_bounded _ _ (fun _ _ => hover)
  | arr xs =>
    have hsum : opts.summary.getD false = false := by
      rcases hs with h | h
      · exact h
      · exact absurd rfl (h xs)
    simp only [limitResponse]
    rw [if_neg (by omega), if_neg (by simp [hf]), if_neg (by simp [hsum])]
    exact finishLimit_bounded _ _ (fun s hvs => JValue.noConfusion hvs)
  | obj kvs =>
    simp only [limitResponse]
    rw [if_neg (by omega), if_neg (by simp [hf])]
    exact finishLimit_bounded _ _ (fun s hvs => JValue.noConfusion hvs)

lemma countWords_arr_bigWord_3600 :
    countWordsL (pretty (JValue.arr [JValue.str (bigWord 3600)])) = 3602 := by
  have h := countWords_arr_bigWord 3598
  norm_num at h
  exact h

lemma c3_summary_decomp :
    createArraySummary [JValue.str (bigWord 3600)] =
      (str "Total items: 1\nAvailable fields: N/A\n\nFirst 3 items:" ++ ['\n']) ++
        pretty (JValue.arr [JValue.str (bigWord 3600)]) := by
  show str "Total items: " ++ natChars 1 ++ str "\nAvailable fields: " ++ str "N/A" ++
      str "\n\nFirst 3 items:\n" ++ pretty (JValue.arr [JValue.str (bigWord 3600)]) = _
  rw [show str "Total items: " ++ natChars 1 ++ str "\nAvailable fields: " ++ str "N/A" ++
      str "\n\nFirst 3 items:\n" =
      str "Total items: 1\nAvailable fields: N/A\n\nFirst 3 items:" ++ ['\n'] from by decide]

lemma c3_summary_count :
    countWordsL (createArraySummary [JValue.str (bigWord 3600)]) = 3611 := by
  rw [c3_summary_decomp]
  unfold countWordsL splitWs
  rw [splitWsAux_append_wsEnd _ (by decide : ('\n').isWhitespace = true)]
  rw [show splitWsAux (str "Total items: 1\nAvailable fields: N/A\n\nFirst 3 items:" ++
      ['\n']) [] =
    [str "Total", str "items:", str "1", str "Available", str "fields:", str "N/A",
     str "First", str "3", str "items:"] from by decide]
  have hX : splitWsAux (pretty (JValue.arr [JValue.str (bigWord 3600)])) [] =
      ['['] :: (['"', 'a'] :: (List.replicate 3598 ['a'] ++ [['a', '"'], [']']])) := by
    have h := splitWs_arr_bigWord 3598
    norm_num at h
    exact h
  rw [hX]
  simp only [List.length_append, List.length_cons, List.length_replicate, List.length_nil]
  norm_num

/-- C3 is false as stated: a list exceeding the ceiling governed with
`summary = true` returns the fixed summary (which embeds the first 3 items
verbatim) without the final re-serialization check, so the outgoing payload
can exceed the ceiling plus the truncation marker. -/
theorem governed_payload_bounded_counterexample :
    MAX_WORDS < countWordsL (pretty (JValue.arr [JValue.str (bigWord 3600)])) ∧
    (LimitOptions.mk none none (some true)).hasFilters = true ∧
    (limitResponse (JValue.arr [JValue.str (bigWord 3600)])
        (LimitOptions.mk none none (some true))).truncated = true ∧
    MAX_WORDS + 11 <
      countWordsL (payloadChars (limitResponse (JValue.arr [JValue.str (bigWord 3600)])
        (LimitOptions.mk none none (some true))).data) := by
  have hover : MAX_WORDS < countWordsL (pretty (JValue.arr [JValue.str (bigWord 3600)])) := by
    rw [countWords_arr_bigWord_3600]
    norm_num [MAX_WORDS]
  have hdata : (limitResponse (JValue.arr [JValue.str (bigWord 3600)])
      (LimitOptions.mk none none (some true))).data =
      .str (createArraySummary [JValue.str (bigWord 3600)]) := by
    simp only [limitResponse]
    rw [if_neg (by omega), if_neg (by decide), if_pos (by decide)]
  have htr : (limitResponse (JValue.arr [JValue.str (bigWord 3600)])
      (LimitOptions.mk none none (some true))).truncated = true := by
    simp only [limitResponse]
    rw [if_neg (by omega), if_neg (by decide), if_pos (by decide)]
  refine ⟨hover, by decide, htr, ?_⟩
  rw [hdata]
  show MAX_WORDS + 11 < countWordsL (createArraySummary [JValue.str (bigWord 3600)])
  rw [c3_summary_count]
  norm_num [MAX_WORDS]

theorem governed_payload_bounded_witness :
    MAX_WORDS < countWordsL (pretty (JValue.arr [JValue.str (bigWord 3600)])) ∧
    (LimitOptions.mk (some 5) none none).hasFilters = true ∧
    countWordsL (payloadChars (limitResponse (JValue.arr [JValue.str (bigWord 3600)])
      (LimitOptions.mk (some 5) none none)).data) ≤ MAX_WORDS + 11 :=
  ⟨by rw [countWords_arr_bigWord_3600]; norm_num [MAX_WORDS], by decide,
    governed_payload_bounded _ _
      (by rw [countWords_arr_bigWord_3600]; norm_num [MAX_WORDS])
      (by decide) (Or.inl (by decide))⟩

/-- C7 (amended): for every non-empty list exceeding the ceiling governed
with no filter options, the metadata reports `exceedsLimit = true` and
recommends `maxItems = max 10 (jsMaxItems wSample)` — the binary64
evaluation of `Math.floor(ceiling / (wSample / 3))`, hence at least 10 —
with `wSample` the word count of the serialized 3-item sample, and the
first 7 available field names as the suggested projection.  The claim's
EXACT `floor(3500 / wordsPerItem)` differs from this double arithmetic at
reachable sample word counts (25, 50, 100 give 419/209/104, not
420/210/105) — see the counterexample. -/
theorem governor_metadata_recommendation (xs : List JValue) (hne : xs ≠ [])
    (hover : MAX_WORDS < countWordsL (pretty (JValue.arr xs))) :
    ∃ m, (limitResponse (JValue.arr xs) {}).metadata = some m ∧
      m.exceedsLimit = true ∧
      m.recommendedFilters =
        some { maxItems := max 10 (jsMaxItems
                 (countWordsL (pretty (JValue.arr (xs.take 3))))),
               suggestedFields := (getAvailableFields (JValue.arr xs)).map (fun l => l.take 7) } ∧
      (∀ rf, m.recommendedFilters = some rf → 10 ≤ rf.maxItems) := by
  cases xs with
  | nil => exact absurd rfl hne
  | cons x xs' =>
    refine ⟨createResponseMetadata (JValue.arr (x :: xs'))
        (countWordsL (pretty (JValue.arr (x :: xs')))), ?_, ?_, ?_, ?_⟩
    · simp only [limitResponse]
      rw [if_neg (by omega), if_pos (by decide)]
    · simp only [createResponseMetadata]
      simp [hover]
    · simp only [createResponseMetadata]
      rw [if_pos hover]
    · simp only [createResponseMetadata]
      rw [if_pos hover]
      intro rf hrf
      have h2 := Option.some_injective _ hrf.symm
      rw [h2]
      exact Nat.le_max_left _ _

theorem governor_metadata_recommendation_witness :
    ([JValue.str (bigWord 3600)] ≠ ([] : List JValue)) ∧
    MAX_WORDS < countWordsL (pretty (JValue.arr [JValue.str (bigWord 3600)])) ∧
    (∃ m, (limitResponse (JValue.arr [JValue.str (bigWord 3600)]) {}).metadata = some m ∧
      m.exceedsLimit = true ∧
      m.recommendedFilters =
        some { maxItems := max 10 (jsMaxItems
                 (countWordsL (pretty (JValue.arr ([JValue.str (bigWord 3600)].take 3))))),
               suggestedFields :=
                 (getAvailableFields (JValue.arr [JValue.str (bigWord 3600)])).map
                   (fun l => l.take 7) } ∧
      (∀ rf, m.recommendedFilters = some rf → 10 ≤ rf.maxItems)) :=
  ⟨by simp, by rw [countWords_arr_bigWord_3600]; norm_num [MAX_WORDS],
   governor_metadata_recommendation _ (by simp)
     (by rw [countWords_arr_bigWord_3600]; norm_num [MAX_WORDS])⟩

/-- The tokenizer state after consuming a string: emitted tokens plus the
pending (reversed) partial token.  Lets token counts of concatenations be
computed compositionally. -/
def splitState : Str → Str → List Str × Str
  | [], acc => ([], acc)
  | c :: cs, acc =>
    if c.isWhitespace then
      if acc.isEmpty then splitState cs []
      else
        let r := splitState cs []
        (acc.reverse :: r.1, r.2)
    else splitState cs (c :: acc)

lemma splitWsAux_split (x : Str) : ∀ (acc rest : Str),
    splitWsAux (x ++ rest) acc =
      (splitState x acc).1 ++ splitWsAux rest (splitState x acc).2 := by
  induction x with
  | nil => intro acc rest; simp [splitState]
  | cons c cs ih =>
    intro acc rest
    by_cases hc : c.isWhitespace = true
    · rw [List.cons_append, splitWsAux_wsStep hc]
      cases acc with
      | nil => simp [splitState, hc, ih]
      | cons a as => simp [splitState, hc, ih]
    · have hc2 : c.isWhitespace = false := by simpa using hc
      rw [List.cons_append, splitWsAux_push hc2, ih]
      simp [splitState, hc2]

lemma splitState_append (x : Str) : ∀ (y : Str) (acc : Str),
    splitState (x ++ y) acc =
      ((splitState x acc).1 ++ (splitState y (splitState x acc).2).1,
       (splitState y (splitState x acc).2).2) := by
  induction x with
  | nil => intro y acc; simp [splitState]
  | cons c cs ih =>
    intro y acc
    by_cases hc : c.isWhitespace = true
    · cases acc with
      | nil => simp [splitState, hc, ih]
      | cons a as => simp [splitState, hc, ih]
    · have hc2 : c.isWhitespace = false := by simpa using hc
      simp [splitState, hc2, ih]

lemma splitState_bigWord (n : Nat) : ∀ (acc : Str),
    splitState (bigWord (n + 2)) acc =
      ((acc.reverse ++ ['a']) :: List.replicate n ['a'], ['a']) := by
  induction n with
  | zero =>
    intro acc
    rw [bigWord_succ_succ]
    simp +decide [splitState, bigWord_one]
  | succ k ih =>
    intro acc
    rw [bigWord_succ_succ]
    have h2 : splitState ('a' :: ' ' :: bigWord (k + 2)) acc =
        splitState (' ' :: bigWord (k + 2)) ('a' :: acc) := by
      simp +decide [splitState]
    rw [h2]
    have h3 : splitState (' ' :: bigWord (k + 2)) ('a' :: acc) =
        (('a' :: acc).reverse :: (splitState (bigWord (k + 2)) []).1,
         (splitState (bigWord (k + 2)) []).2) := by
      simp +decide [splitState]
    rw [h3, ih []]
    simp [List.replicate_succ]

lemma splitState_nilL (acc : Str) : splitState [] acc = ([], acc) := rfl

lemma splitState_push {c : Char} (hc : c.isWhitespace = false) (cs acc : Str) :
    splitState (c :: cs) acc = splitState cs (c :: acc) := by simp [splitState, hc]

lemma splitState_ws_nil {c : Char} (hc : c.isWhitespace = true) (cs : Str) :
    splitState (c :: cs) [] = splitState cs [] := by simp [splitState, hc]

lemma splitState_ws_cons {c : Char} (hc : c.isWhitespace = true) (cs : Str)
    (a : Char) (as : Str) :
    splitState (c :: cs) (a :: as) =
      ((a :: as).reverse :: (splitState cs []).1, (splitState cs []).2) := by
  simp [splitState, hc]

/-- A record as in C4's scenario: one top-level field holding a list of 11
elements (10 small ones and one large), so the value exceeds the ceiling
while its record-truncation (first 10 items) is small. -/
def w4items : List JValue :=
  List.replicate 10 (JValue.num 1) ++ [JValue.str (bigWord 3600)]

def w4 : JValue := JValue.obj [(['i'], JValue.arr w4items)]

lemma countWords_w4 : countWordsL (pretty w4) = 3615 := by
  have hItems : w4items = JValue.num 1 :: (JValue.num 1 :: (JValue.num 1 :: (JValue.num 1 ::
      (JValue.num 1 :: (JValue.num 1 :: (JValue.num 1 :: (JValue.num 1 :: (JValue.num 1 ::
      (JValue.num 1 :: [JValue.str (bigWord 3600)]))))))))) := rfl
  have hInt : intChars 1 = ['1'] := by decide
  have hbw : splitState (bigWord 3600) ['"'] =
      ((['"'].reverse ++ ['a']) :: List.replicate 3598 ['a'], ['a']) := by
    have h := splitState_bigWord 3598 ['"']
    norm_num at h
    exact h
  have hQI : quoteStr ['i'] = ['"', 'i', '"'] := by decide
  have hqs : quoteStr (bigWord 3600) = '"' :: bigWord 3600 ++ ['"'] := by
    rw [quoteStr, escList_bigWord]
  have hI : splitState (indentChars 1) [] = ([], []) := by decide
  have hI2 : splitState (indentChars 2) [] = ([], []) := by decide
  have hI0 : splitState (indentChars 0) [] = ([], []) := by decide
  have hEnd : splitWsAux ['\x7d'] [] = [['\x7d']] := by decide
  have cbr : ('\x7b').isWhitespace = false := by decide
  have cnl : ('\n').isWhitespace = true := by decide
  have csp : (' ').isWhitespace = true := by decide
  have cqu : ('"').isWhitespace = false := by decide
  have cii : ('i').isWhitespace = false := by decide
  have cco : (':').isWhitespace = false := by decide
  have ccm : (',').isWhitespace = false := by decide
  have c11 : ('1').isWhitespace = false := by decide
  have clb : ('[').isWhitespace = false := by decide
  have crb : (']').isWhitespace = false := by decide
  show countWordsL (pretty (JValue.obj [(['i'], JValue.arr w4items)])) = 3615
  rw [hItems]
  simp only [pretty, prettyV, prettyFields, prettyItems, hInt, hqs, hQI]
  unfold countWordsL splitWs
  rw [splitWsAux_split]
  simp only [splitState_append, splitState_nilL, splitState_push, splitState_ws_nil,
    splitState_ws_cons, hInt, hqs, hbw, hI, hI2, hI0, hEnd, cbr, cnl, csp, cqu, cii, cco, ccm,
    c11, clb, crb]
  simp only [List.length_append, List.length_cons, List.length_replicate,
    List.length_nil, List.length_reverse]
  norm_num

/-- C4 (amended): with at least one filter option supplied, a record value
exceeding the ceiling has every top-level field holding a list longer than 10
elements cut to its first 10, with a `<key>_truncated` sibling marker
appended to the record; the truncated record is the returned payload provided
its re-serialization is within the ceiling (otherwise the final safety net
hard-truncates the text).  With NO options the governor returns metadata
instead — see the counterexample. -/
theorem record_truncation (kvs : List (Str × JValue)) (opts : LimitOptions)
    (hover : MAX_WORDS < countWordsL (pretty (JValue.obj kvs)))
    (hf : opts.hasFilters = true)
    (hwithin : countWordsL (pretty (JValue.obj (truncRecordFields kvs))) ≤ MAX_WORDS) :
    (limitResponse (JValue.obj kvs) opts).data = JValue.obj (truncRecordFields kvs) ∧
    ∀ k l, (k, JValue.arr l) ∈ kvs → 10 < l.length →
      (k, JValue.arr (l.take 10)) ∈ truncRecordFields kvs ∧
      (k ++ str "_truncated",
        JValue.str (str "Showing 10 of " ++ natChars l.length ++ str " items")) ∈
          truncRecordFields kvs := by
  constructor
  · simp only [limitResponse]
    rw [if_neg (by omega), if_neg (by simp [hf])]
    simp only [finishLimit]
    rw [if_neg (by omega)]
  · intro k l hmem hlen
    constructor
    · unfold truncRecordFields
      refine List.mem_append.2 (Or.inl ?_)
      refine List.mem_map.2 ⟨(k, JValue.arr l), hmem, ?_⟩
      simp [hlen]
    · unfold truncRecordFields
      refine List.mem_append.2 (Or.inr ?_)
      refine List.mem_filterMap.2 ⟨(k, JValue.arr l), hmem, ?_⟩
      simp [hlen]

/-- C4 is false as stated: the record `w4` exceeds the ceiling and holds an
11-element list under key `i`, yet governed with NO filter options the
result is the metadata payload — no `i_truncated` sibling and no truncated
`i` field appear. -/
theorem record_truncation_counterexample :
    MAX_WORDS < countWordsL (pretty w4) ∧
    objLookup w4 ['i'] = some (JValue.arr w4items) ∧
    w4items.length = 11 ∧
    (objLookup (limitResponse w4 {}).data (['i'] ++ str "_truncated")).isNone = true ∧
    (objLookup (limitResponse w4 {}).data ['i']).isNone = true ∧
    (limitResponse w4 {}).metadata.isSome = true := by
  have hover : MAX_WORDS < countWordsL (pretty w4) := by
    rw [countWords_w4]
    norm_num [MAX_WORDS]
  have hover2 : ¬ (countWordsL (pretty (JValue.obj [(['i'], JValue.arr w4items)])) ≤
      MAX_WORDS) := by
    have h2 := hover
    rw [show w4 = JValue.obj [(['i'], JValue.arr w4items)] from rfl] at h2
    omega
  have hdata : (limitResponse w4 {}).data =
      metadataPayload (createResponseMetadata (JValue.obj [(['i'], JValue.arr w4items)])
        (countWordsL (pretty (JValue.obj [(['i'], JValue.arr w4items)]))))
      (countWordsL (pretty (JValue.obj [(['i'], JValue.arr w4items)]))) := by
    rw [show w4 = JValue.obj [(['i'], JValue.arr w4items)] from rfl]
    simp only [limitResponse]
    rw [if_neg hover2, if_pos (by decide)]
  have hmeta : (limitResponse w4 {}).metadata.isSome = true := by
    rw [show w4 = JValue.obj [(['i'], JValue.arr w4items)] from rfl]
    simp only [limitResponse]
    rw [if_neg hover2, if_pos (by decide)]
    rfl
  refine ⟨hover, rfl, by decide, ?_, ?_, hmeta⟩
  · rw [hdata]
    simp +decide [objLookup, metadataPayload, List.find?]
  · rw [hdata]
    simp +decide [objLookup, metadataPayload, List.find?]

theorem record_truncation_witness :
    (MAX_WORDS < countWordsL (pretty (JValue.obj [(['i'], JValue.arr w4items)])) ∧
     (LimitOptions.mk (some 5) none none).hasFilters = true ∧
     countWordsL (pretty (JValue.obj (truncRecordFields [(['i'], JValue.arr w4items)]))) ≤
       MAX_WORDS ∧
     (['i'], JValue.arr w4items) ∈ [(['i'], JValue.arr w4items)] ∧
     10 < w4items.length) ∧
    (limitResponse (JValue.obj [(['i'], JValue.arr w4items)])
        (LimitOptions.mk (some 5) none none)).data =
      JValue.obj (truncRecordFields [(['i'], JValue.arr w4items)]) ∧
    (['i'], JValue.arr (w4items.take 10)) ∈ truncRecordFields [(['i'], JValue.arr w4items)] ∧
    (['i'] ++ str "_truncated",
      JValue.str (str "Showing 10 of " ++ natChars w4items.length ++ str " items")) ∈
        truncRecordFields [(['i'], JValue.arr w4items)] := by
  have hover : MAX_WORDS < countWordsL (pretty (JValue.obj [(['i'], JValue.arr w4items)])) := by
    have h2 := countWords_w4
    rw [show w4 = JValue.obj [(['i'], JValue.arr w4items)] from rfl] at h2
    rw [h2]
    norm_num [MAX_WORDS]
  have hwithin : countWordsL (pretty (JValue.obj
      (truncRecordFields [(['i'], JValue.arr w4items)]))) ≤ MAX_WORDS := by decide
  have h := record_truncation [(['i'], JValue.arr w4items)]
    (LimitOptions.mk (some 5) none none) hover (by decide) hwithin
  refine ⟨⟨hover, by decide, hwithin, List.mem_singleton.mpr rfl, by decide⟩, h.1, ?_, ?_⟩
  · exact (h.2 ['i'] w4items (List.mem_singleton.mpr rfl) (by decide)).1
  · exact (h.2 ['i'] w4items (List.mem_singleton.mpr rfl) (by decide)).2

/-- C7's counterexample data: a list over the ceiling whose 3-item sample
serializes to exactly 25 words (`[` + 8 + 8 + 7 + `]`), one of the word
counts where binary64 and exact arithmetic disagree. -/
def c7data : List JValue :=
  [JValue.str (bigWord 8), JValue.str (bigWord 8), JValue.str (bigWord 7),
   JValue.str (bigWord 3600)]

lemma countWords_c7 : countWordsL (pretty (JValue.arr c7data)) = 3625 := by
  have hqs8 : quoteStr (bigWord 8) = '"' :: bigWord 8 ++ ['"'] := by
    rw [quoteStr, escList_bigWord]
  have hqs7 : quoteStr (bigWord 7) = '"' :: bigWord 7 ++ ['"'] := by
    rw [quoteStr, escList_bigWord]
  have hqsB : quoteStr (bigWord 3600) = '"' :: bigWord 3600 ++ ['"'] := by
    rw [quoteStr, escList_bigWord]
  have hbw8 : splitState (bigWord 8) ['"'] =
      ((['"'].reverse ++ ['a']) :: List.replicate 6 ['a'], ['a']) := by
    have h := splitState_bigWord 6 ['"']
    norm_num at h
    exact h
  have hbw7 : splitState (bigWord 7) ['"'] =
      ((['"'].reverse ++ ['a']) :: List.replicate 5 ['a'], ['a']) := by
    have h := splitState_bigWord 5 ['"']
    norm_num at h
    exact h
  have hbwB : splitState (bigWord 3600) ['"'] =
      ((['"'].reverse ++ ['a']) :: List.replicate 3598 ['a'], ['a']) := by
    have h := splitState_bigWord 3598 ['"']
    norm_num at h
    exact h
  have hI1 : splitState (indentChars 1) [] = ([], []) := by decide
  have hI0 : splitState (indentChars 0) [] = ([], []) := by decide
  have hEnd : splitWsAux [']'] [] = [[']']] := by decide
  have cnl : ('\n').isWhitespace = true := by decide
  have csp : (' ').isWhitespace = true := by decide
  have cqu : ('"').isWhitespace = false := by decide
  have ccm : (',').isWhitespace = false := by decide
  have clb : ('[').isWhitespace = false := by decide
  have crb : (']').isWhitespace = false := by decide
  show countWordsL (pretty (JValue.arr (JValue.str (bigWord 8) ::
      [JValue.str (bigWord 8), JValue.str (bigWord 7),
       JValue.str (bigWord 3600)]))) = 3625
  simp only [pretty, prettyV, prettyItems, hqs8, hqs7, hqsB]
  unfold countWordsL splitWs
  rw [splitWsAux_split]
  simp only [splitState_append, splitState_nilL, splitState_push, splitState_ws_nil,
    splitState_ws_cons, hbw8, hbw7, hbwB, hI1, hI0, hEnd, cnl, csp, cqu, ccm, clb, crb]
  simp only [List.length_append, List.length_cons, List.length_replicate,
    List.length_nil, List.length_reverse]
  norm_num

/-- C7 is false as stated: on `c7data` (over the ceiling, 3-item sample of
25 words, no options) the program's binary64 arithmetic recommends
`maxItems = 419`, while the claim's exact `max(10, floor(3500 /
wordsPerItem))` equals 420. -/
theorem governor_metadata_recommendation_counterexample :
    MAX_WORDS < countWordsL (pretty (JValue.arr c7data)) ∧
    countWordsL (pretty (JValue.arr (c7data.take 3))) = 25 ∧
    (∃ m, (limitResponse (JValue.arr c7data) {}).metadata = some m ∧
      m.recommendedFilters.map (fun rf => rf.maxItems) = some 419) ∧
    max 10 (MAX_WORDS * 3 / 25) = 420 := by
  have e1 : JValue.arr c7data = JValue.arr (JValue.str (bigWord 8) ::
      [JValue.str (bigWord 8), JValue.str (bigWord 7), JValue.str (bigWord 3600)]) := rfl
  have hover : MAX_WORDS < countWordsL (pretty (JValue.arr c7data)) := by
    rw [countWords_c7]
    norm_num [MAX_WORDS]
  have hoverc : MAX_WORDS < countWordsL (pretty (JValue.arr (JValue.str (bigWord 8) ::
      [JValue.str (bigWord 8), JValue.str (bigWord 7), JValue.str (bigWord 3600)]))) := by
    have h2 := hover
    rw [e1] at h2
    exact h2
  have hover2 : ¬ (countWordsL (pretty (JValue.arr (JValue.str (bigWord 8) ::
      [JValue.str (bigWord 8), JValue.str (bigWord 7),
       JValue.str (bigWord 3600)]))) ≤ MAX_WORDS) := by omega
  have hmeta : (limitResponse (JValue.arr c7data) {}).metadata =
      some (createResponseMetadata
        (JValue.arr (JValue.str (bigWord 8) ::
          [JValue.str (bigWord 8), JValue.str (bigWord 7), JValue.str (bigWord 3600)]))
        (countWordsL (pretty (JValue.arr (JValue.str (bigWord 8) ::
          [JValue.str (bigWord 8), JValue.str (bigWord 7),
           JValue.str (bigWord 3600)]))))) := by
    rw [e1]
    simp only [limitResponse]
    rw [if_neg hover2, if_pos (by decide)]
  have hsample : countWordsL (pretty (JValue.arr ((JValue.str (bigWord 8) ::
      [JValue.str (bigWord 8), JValue.str (bigWord 7),
       JValue.str (bigWord 3600)]).take 3))) = 25 := by decide
  refine ⟨hover, by decide, ⟨_, hmeta, ?_⟩, by decide⟩
  simp only [createResponseMetadata]
  rw [if_pos hoverc, hsample]
  decide

/-! ## Claim theorems: the Fetcher -/

/-- C5: when the server-advertised content length exceeds the byte ceiling,
`downloadFile` fails with the size-exceeded error before streaming begins,
and the filesystem is untouched (no file is created at the destination). -/
theorem downloadFile_content_length_rejects (env : Env) (fuel : Nat)
    (url filepath : Str) (maxSizeMB : Nat) (fs : FS) (r : NetResponse)
    (hnet : env.net url = some r) (hst : r.status = 200)
    (hlen : maxSizeMB * 1024 * 1024 < r.contentLength.getD 0) :
    downloadFile env (fuel + 1) url filepath maxSizeMB fs =
      (.error (tooLargeMsg (r.contentLength.getD 0) maxSizeMB), fs) := by
  simp only [downloadFile]
  rw [hnet]
  simp only [hst]
  rw [if_neg (by norm_num), if_neg (by norm_num), if_pos hlen]

def dlResp1 : NetResponse :=
  { status := 200, contentLength := some 60000000, events := [] }

def dlEnv1 : Env :=
  { net := fun u => if u == str "https://ex.com/f.pdf" then some dlResp1 else none,
    pdf := fun _ => .error (str "unavailable"),
    unzip := fun _ => .error (str "unavailable") }

theorem downloadFile_content_length_rejects_witness :
    dlEnv1.net (str "https://ex.com/f.pdf") = some dlResp1 ∧
    dlResp1.status = 200 ∧
    50 * 1024 * 1024 < dlResp1.contentLength.getD 0 ∧
    downloadFile dlEnv1 (redirectFuel + 1) (str "https://ex.com/f.pdf")
        (str "downloads/documents/f.pdf") 50 [] =
      (.error (tooLargeMsg (dlResp1.contentLength.getD 0) 50), []) :=
  ⟨by decide, rfl, by decide,
    downloadFile_content_length_rejects _ _ _ _ _ _ _ (by decide) rfl (by decide)⟩

lemma fsExists_fsErase (fs : FS) (p : Str) : fsExists (fsErase fs p) p = false := by
  induction fs with
  | nil => rfl
  | cons e fs ih =>
    by_cases h : e.1 = p
    · simpa [fsErase, h] using ih
    · have hb : (e.1 != p) = true := by simpa using h
      simp only [fsErase, List.filter] at ih ⊢
      rw [hb]
      simpa [fsExists, fsLookup, List.find?, beq_eq_false_iff_ne, h,
        show (e.1 == p) = false by simpa using h] using ih

lemma runStream_err_no_file (p : Str) (mB : Nat) :
    ∀ (evs : List DlEvent) (acc : Str) (fs : FS), DlEvent.timeout ∉ evs →
      ∀ m, (runStream p mB evs acc fs).1 = .error m →
        fsExists (runStream p mB evs acc fs).2 p = false := by
  intro evs
  induction evs with
  | nil => intro acc fs _ m hm; simp [runStream] at hm
  | cons ev rest ih =>
    intro acc fs hto m hm
    cases ev with
    | chunk d =>
      simp only [runStream] at hm ⊢
      by_cases hb : mB < (acc ++ d).length
      · rw [if_pos hb] at hm ⊢
        exact fsExists_fsErase _ _
      · rw [if_neg hb] at hm ⊢
        exact ih _ _ (fun hmem => hto (List.mem_cons_of_mem _ hmem)) m hm
    | streamError msg =>
      simp only [runStream]
      exact fsExists_fsErase _ _
    | timeout => exact absurd (List.mem_cons_self _ _) hto

/-- C6 (amended): `downloadFile` leaves no file behind on a non-2xx status
(the filesystem is untouched), and deletes the partial file on a mid-stream
byte-ceiling breach or a file-stream error (any non-timeout stream failure);
the 60-second timeout path, however, does NOT clean up — see the
counterexample. -/
theorem downloadFile_cleanup (env : Env) (fuel : Nat) (url filepath : Str)
    (maxSizeMB : Nat) (fs : FS) (r : NetResponse) (hnet : env.net url = some r) :
    (¬ (r.status = 301 ∨ r.status = 302) → r.status ≠ 200 →
      downloadFile env (fuel + 1) url filepath maxSizeMB fs =
        (.error (httpErrMsg r.status), fs)) ∧
    (fsExists fs filepath = false → r.status = 200 → DlEvent.timeout ∉ r.events →
      ∀ m, (downloadFile env (fuel + 1) url filepath maxSizeMB fs).1 = .error m →
        fsExists (downloadFile env (fuel + 1) url filepath maxSizeMB fs).2 filepath = false) := by
  constructor
  · intro hred h200
    simp only [downloadFile]
    rw [hnet]
    simp only [if_neg hred, if_pos h200]
  · intro hfs0 hst hto m hm
    simp only [downloadFile] at hm ⊢
    rw [hnet] at hm ⊢
    simp only [hst] at hm ⊢
    rw [if_neg (by norm_num), if_neg (by norm_num)] at hm ⊢
    by_cases hlen : maxSizeMB * 1024 * 1024 < r.contentLength.getD 0
    · rw [if_pos hlen]
      exact hfs0
    · rw [if_neg hlen] at hm ⊢
      exact runStream_err_no_file _ _ _ _ _ hto m hm

def dlResp2 : NetResponse :=
  { status := 200, contentLength := none,
    events := [.chunk (str "ab"), .streamError (str "boom")] }

def dlEnv2 : Env :=
  { net := fun u => if u == str "https://ex.com/g.pdf" then some dlResp2 else none,
    pdf := fun _ => .error (str "unavailable"),
    unzip := fun _ => .error (str "unavailable") }

theorem downloadFile_cleanup_witness :
    dlEnv2.net (str "https://ex.com/g.pdf") = some dlResp2 ∧
    fsExists ([] : FS) (str "downloads/documents/g.pdf") = false ∧
    dlResp2.status = 200 ∧
    DlEvent.timeout ∉ dlResp2.events ∧
    (downloadFile dlEnv2 (redirectFuel + 1) (str "https://ex.com/g.pdf")
        (str "downloads/documents/g.pdf") 50 []).1 = .error (str "stream error") ∧
    fsExists (downloadFile dlEnv2 (redirectFuel + 1) (str "https://ex.com/g.pdf")
        (str "downloads/documents/g.pdf") 50 []).2 (str "downloads/documents/g.pdf") = false :=
  ⟨rfl, rfl, rfl, by decide, rfl,
    (downloadFile_cleanup dlEnv2 redirectFuel (str "https://ex.com/g.pdf")
        (str "downloads/documents/g.pdf") 50 [] dlResp2 rfl).2
      rfl rfl (by decide) (str "stream error") rfl⟩

def dlResp3 : NetResponse :=
  { status := 200, contentLength := none,
    events := [.chunk (str "ab"), .timeout] }

def dlEnv3 : Env :=
  { net := fun _ => some dlResp3,
    pdf := fun _ => .error (str "unavailable"),
    unzip := fun _ => .error (str "unavailable") }

/-- C6 counterexample: on the 60-second-timeout failure path the partial
file written so far is NOT removed — `downloadFile` fails with
"Download timeout" yet the destination file still exists on disk, refuting
"no partial or corrupt file remains ... on every failure path". -/
theorem downloadFile_cleanup_counterexample :
    (downloadFile dlEnv3 (redirectFuel + 1) (str "https://ex.com/h.pdf")
        (str "downloads/documents/h.pdf") 50 []).1 = .error (str "Download timeout") ∧
    fsExists (downloadFile dlEnv3 (redirectFuel + 1) (str "https://ex.com/h.pdf")
        (str "downloads/documents/h.pdf") 50 []).2 (str "downloads/documents/h.pdf") = true := by
  exact ⟨rfl, by decide⟩

/-! ## Claim theorems: the Extractor -/

/-- C8 (amended): on the range branch of `extractPdfText` the extracted span
is `S = max 1 (startPage || 1)` to `E = min totalPages (endPage || totalPages)`,
iterated in ascending order (`rangePages`), with descriptor "S-E".  For a
supplied `start` this agrees with the claim's `max(1, start)`, and for a
supplied nonzero `end` with the claim's `min(totalPages, end)`; but `end = 0`
falls back to `totalPages` (JS `endPage || totalPages`), NOT the claim's
`min(totalPages, 0) = 0` — see the counterexample. -/
theorem extract_range_clamps (env : Env) (fs : FS) (filepath content : Str)
    (doc : PdfDoc) (s e : Option Nat)
    (hfs : fsLookup fs filepath = some content)
    (hpdf : env.pdf content = .ok doc)
    (hrange : (truthyN s || truthyN e) = true) :
    (extractPdfText env fs filepath
        { startPage := s, endPage := e, pages := none }).totalPages
      = doc.pages.length ∧
    (extractPdfText env fs filepath
        { startPage := s, endPage := e, pages := none }).extractedPages
      = natChars (max 1 (orDefault s 1)) ++ '-' ::
          natChars (min doc.pages.length (orDefault e doc.pages.length)) ∧
    (∃ hdr, (extractPdfText env fs filepath
        { startPage := s, endPage := e, pages := none }).text
      = hdr ++ ((rangePages (max 1 (orDefault s 1))
            (min doc.pages.length (orDefault e doc.pages.length))).map
            (renderPage doc.pages)).flatten) ∧
    (∀ sv, s = some sv → max 1 (orDefault s 1) = max 1 sv) ∧
    (∀ ev, e = some ev → ev ≠ 0 →
      min doc.pages.length (orDefault e doc.pages.length) = min doc.pages.length ev) ∧
    ((e = none ∨ e = some 0) →
      min doc.pages.length (orDefault e doc.pages.length) = doc.pages.length) := by
  have hred : extractPdfText env fs filepath
      { startPage := s, endPage := e, pages := none } =
      { text := str "PDF: " ++ basenameC filepath ++ '\n' ::
          str "Total Pages: " ++ natChars doc.pages.length ++
          str " | Extracted Pages: " ++ (natChars (max 1 (orDefault s 1)) ++ '-' ::
            natChars (min doc.pages.length (orDefault e doc.pages.length))) ++
          str " | Text Length: " ++
          natChars (((rangePages (max 1 (orDefault s 1))
              (min doc.pages.length (orDefault e doc.pages.length))).map
              (renderPage doc.pages)).flatten).length ++
          str " characters\n\n" ++ List.replicate 80 '=' ++ '\n' ::
          ((rangePages (max 1 (orDefault s 1))
              (min doc.pages.length (orDefault e doc.pages.length))).map
              (renderPage doc.pages)).flatten,
        totalPages := doc.pages.length,
        extractedPages := natChars (max 1 (orDefault s 1)) ++ '-' ::
          natChars (min doc.pages.length (orDefault e doc.pages.length)) } := by
    simp only [extractPdfText, hfs, hpdf, hrange, if_true]
  refine ⟨by rw [hred], by rw [hred],
    ⟨_, by rw [hred]; exact List.append_cons _ _ _⟩, ?_, ?_, ?_⟩
  · intro sv hsv
    subst hsv
    by_cases h0 : sv = 0
    · subst h0; decide
    · simp only [orDefault]; rw [if_neg h0]
  · intro ev hev hne
    subst hev
    simp only [orDefault]
    rw [if_neg hne]
  · intro h
    rcases h with h | h <;> subst h <;> simp [orDefault]

def doc8 : PdfDoc := { pages := [str "hello"], text := str "hello" }

def env8 : Env :=
  { net := fun _ => none,
    pdf := fun c => if c == str "PDFDATA" then .ok doc8 else .error (str "bad"),
    unzip := fun _ => .error (str "unavailable") }

def fs8 : FS := [(str "downloads/documents/doc.pdf", str "PDFDATA")]

/-- C8 counterexample: with `endPage = 0` on a 1-page document the code's
`endPage || totalPages` default makes the descriptor "1-1" (and extracts
page 1), whereas the claim's clamp `end = min(totalPages, end)` would give
`min(1, 0) = 0`, i.e. descriptor "1-0" and no pages. -/
theorem extract_range_clamps_counterexample :
    (extractPdfText env8 fs8 (str "downloads/documents/doc.pdf")
        { startPage := some 1, endPage := some 0, pages := none }).totalPages = 1 ∧
    (extractPdfText env8 fs8 (str "downloads/documents/doc.pdf")
        { startPage := some 1, endPage := some 0, pages := none }).extractedPages
      = str "1-1" ∧
    str "1-1" ≠ natChars (max 1 1) ++ '-' :: natChars (min 1 0) := by
  exact ⟨by decide, by decide, by decide⟩

def doc5 : PdfDoc :=
  { pages := [str "p1", str "p2", str "p3", str "p4", str "p5"], text := str "all" }

def env5 : Env :=
  { net := fun _ => none,
    pdf := fun c => if c == str "FIVE" then .ok doc5 else .error (str "bad"),
    unzip := fun _ => .error (str "unavailable") }

def fs5 : FS := [(str "downloads/documents/five.pdf", str "FIVE")]

theorem extract_range_clamps_witness :
    fsLookup fs5 (str "downloads/documents/five.pdf") = some (str "FIVE") ∧
    env5.pdf (str "FIVE") = .ok doc5 ∧
    (truthyN (some 0) || truthyN (some 10000)) = true ∧
    (extractPdfText env5 fs5 (str "downloads/documents/five.pdf")
        { startPage := some 0, endPage := some 10000, pages := none }).extractedPages
      = str "1-5" ∧
    rangePages 1 5 = [1, 2, 3, 4, 5] :=
  ⟨rfl, rfl, by decide,
    by
      have h := (extract_range_clamps env5 fs5 (str "downloads/documents/five.pdf")
        (str "FIVE") doc5 (some 0) (some 10000) rfl rfl (by decide)).2.1
      rw [h]; decide,
    by decide⟩

lemma extractPdfText_degraded_eq (env : Env) (po : PageOptions) (fs : FS)
    (filepath content msg : Str)
    (hfs : fsLookup fs filepath = some content)
    (hpdf : env.pdf content = .error msg) :
    extractPdfText env fs filepath po =
      { text := str "PDF file: " ++ basenameC filepath ++
          str "\n\nError extracting text: " ++ msg ++
          str "\n\nFile location: " ++ filepath,
        totalPages := 0, extractedPages := str "error" } := by
  simp only [extractPdfText, hfs, hpdf]

/-- C9: a PDF-parser failure is downgraded to a degraded result — the
extraction returns (rather than throws) a diagnostic text with
`totalPages = 0` and descriptor `"error"`, and `readDocumentPages` still
reports `success = true` carrying that degraded metadata. -/
theorem extract_degraded (env : Env) (po : PageOptions) :
    (∀ (fs : FS) (filepath content msg : Str),
      fsLookup fs filepath = some content → env.pdf content = .error msg →
      extractPdfText env fs filepath po =
        { text := str "PDF file: " ++ basenameC filepath ++
            str "\n\nError extracting text: " ++ msg ++
            str "\n\nFile location: " ++ filepath,
          totalPages := 0, extractedPages := str "error" }) ∧
    (∀ (st : St) (f content msg : Str) (maxSizeMB : Nat),
      optTruthyS (some f) = some f →
      fsLookup st.fs (downloadDir ++ '/' :: f) = some content →
      lowerStr (extnameC (downloadDir ++ '/' :: f)) = str ".pdf" →
      env.pdf content = .error msg →
      (readDocumentPages env (some f) none po maxSizeMB st).1.success = true ∧
      (readDocumentPages env (some f) none po maxSizeMB st).1.metadata.map (·.pages)
        = some (some 0) ∧
      (readDocumentPages env (some f) none po maxSizeMB st).1.metadata.map
          (·.extractedPages)
        = some (some (str "error"))) := by
  constructor
  · intro fs filepath content msg hfs hpdf
    exact extractPdfText_degraded_eq env po fs filepath content msg hfs hpdf
  · intro st f content msg maxSizeMB hf hfs hext hpdf
    have hex : fsExists st.fs (downloadDir ++ '/' :: f) = true := by
      unfold fsExists
      rw [hfs]
      rfl
    have hres : resolveDoc env (some f) none maxSizeMB st =
        (.ok (downloadDir ++ '/' :: f), st) := by
      simp only [resolveDoc, hf, hex, if_true]
    have hdeg := extractPdfText_degraded_eq env po st.fs (downloadDir ++ '/' :: f)
      content msg hfs hpdf
    simp only [readDocumentPages, hres, hext, ne_eq, not_true_eq_false, if_false,
      ite_false, hfs, hdeg]
    exact ⟨trivial, rfl, rfl⟩

def env9 : Env :=
  { net := fun _ => none,
    pdf := fun _ => .error (str "Invalid PDF structure"),
    unzip := fun _ => .error (str "unavailable") }

def st9 : St := { fs := [(str "downloads/documents/a.pdf", str "JUNK")], fetches := 0 }

theorem extract_degraded_witness :
    fsLookup st9.fs (downloadDir ++ '/' :: str "a.pdf") = some (str "JUNK") ∧
    env9.pdf (str "JUNK") = .error (str "Invalid PDF structure") ∧
    lowerStr (extnameC (downloadDir ++ '/' :: str "a.pdf")) = str ".pdf" ∧
    ((readDocumentPages env9 (some (str "a.pdf")) none {} 50 st9).1.success = true ∧
      (readDocumentPages env9 (some (str "a.pdf")) none {} 50 st9).1.metadata.map (·.pages)
        = some (some 0) ∧
      (readDocumentPages env9 (some (str "a.pdf")) none {} 50 st9).1.metadata.map
          (·.extractedPages)
        = some (some (str "error"))) :=
  ⟨rfl, rfl, by decide,
    (extract_degraded env9 {}).2 st9 (str "a.pdf") (str "JUNK")
      (str "Invalid PDF structure") 50 rfl rfl (by decide) rfl⟩

/-- C10: whenever `readDocumentPages` resolves to a file (cached or freshly
downloaded) whose lower-cased extension is not ".pdf", it fails with
"This tool only supports PDF files. File type: {ext}" — no extraction of
.zip/.txt/.csv/.json/.xml/.html ever happens through this entry point. -/
theorem readDocumentPages_pdf_only (env : Env) (filename url : Option Str)
    (po : PageOptions) (maxSizeMB : Nat) (st : St) (filepath : Str) (st2 : St)
    (hres : resolveDoc env filename url maxSizeMB st = (.ok filepath, st2))
    (hext : lowerStr (extnameC filepath) ≠ str ".pdf") :
    readDocumentPages env filename url po maxSizeMB st =
      ({ success := false,
         error := some (str "This tool only supports PDF files. File type: " ++
           lowerStr (extnameC filepath)) }, st2) := by
  simp only [readDocumentPages, hres]
  rw [if_pos hext]

def st10 : St := { fs := [(str "downloads/documents/a.txt", str "hello")], fetches := 0 }

def env10 : Env :=
  { net := fun _ => none,
    pdf := fun _ => .error (str "unavailable"),
    unzip := fun _ => .error (str "unavailable") }

theorem readDocumentPages_pdf_only_witness :
    resolveDoc env10 (some (str "a.txt")) none 50 st10 =
      (.ok (str "downloads/documents/a.txt"), st10) ∧
    lowerStr (extnameC (str "downloads/documents/a.txt")) ≠ str ".pdf" ∧
    readDocumentPages env10 (some (str "a.txt")) none {} 50 st10 =
      ({ success := false,
         error := some (str "This tool only supports PDF files. File type: " ++
           lowerStr (extnameC (str "downloads/documents/a.txt"))) }, st10) :=
  ⟨rfl, by decide,
    readDocumentPages_pdf_only env10 (some (str "a.txt")) none {} 50 st10
      (str "downloads/documents/a.txt") st10 rfl (by decide)⟩

/-! ## Cache-idempotence toolkit -/

lemma fsExists_fsInsert_self (fs : FS) (p c : Str) :
    fsExists (fsInsert fs p c) p = true := by
  simp [fsExists, fsInsert, fsLookup, List.find?]

lemma find_isSome_filter_ne (fs : FS) (p q : Str) (hpq : p ≠ q) :
    (List.find? (fun e => e.1 == p) (fs.filter (fun e => e.1 != q))).isSome =
      (List.find? (fun e => e.1 == p) fs).isSome := by
  induction fs with
  | nil => rfl
  | cons e fs ih =>
    by_cases he : e.1 = p
    · have h1 : (e.1 == p) = true := by simpa using he
      have h2 : (e.1 != q) = true := by
        simp only [bne_iff_ne, ne_eq, he]
        exact hpq
      simp [List.filter_cons, h2, List.find?_cons, h1]
    · have h1 : (e.1 == p) = false := by simpa using he
      by_cases hq : e.1 = q
      · have h2 : (e.1 != q) = false := by simpa using hq
        simp only [List.filter_cons, h2, Bool.false_eq_true, if_false]
        rw [ih, List.find?_cons_of_neg _ (by simp [h1])]
      · have h2 : (e.1 != q) = true := by simpa using hq
        simp only [List.filter_cons, h2, if_true]
        rw [List.find?_cons_of_neg _ (by simp [h1]),
          List.find?_cons_of_neg _ (by simp [h1])]
        exact ih

lemma fsExists_fsInsert_of (fs : FS) (p q c : Str) (h : fsExists fs p = true) :
    fsExists (fsInsert fs q c) p = true := by
  by_cases hpq : p = q
  · subst hpq; exact fsExists_fsInsert_self _ _ _
  · simp only [fsExists, fsInsert, fsLookup, Option.isSome_map'] at h ⊢
    rw [List.find?_cons_of_neg _ (by simpa using fun h' => hpq h'.symm)]
    rw [find_isSome_filter_ne fs p q hpq]
    exact h

lemma fsExists_foldl (p : Str) :
    ∀ (entries : List (Str × Str)) (ep : Str) (fs : FS), fsExists fs p = true →
      fsExists (entries.foldl
        (fun acc e => fsInsert acc (ep ++ '/' :: e.1) e.2) fs) p = true := by
  intro entries
  induction entries with
  | nil => intro ep fs h; exact h
  | cons e es ih =>
    intro ep fs h
    exact ih ep _ (fsExists_fsInsert_of _ _ _ _ h)

lemma runStream_ok_exists (p : Str) (mB : Nat) :
    ∀ (evs : List DlEvent) (acc : Str) (fs : FS), fsExists fs p = true →
      (runStream p mB evs acc fs).1 = .ok () →
      fsExists (runStream p mB evs acc fs).2 p = true := by
  intro evs
  induction evs with
  | nil => intro acc fs h _; simpa [runStream] using h
  | cons ev rest ih =>
    intro acc fs h hok
    cases ev with
    | chunk d =>
      simp only [runStream] at hok ⊢
      by_cases hb : mB < (acc ++ d).length
      · rw [if_pos hb] at hok; simp at hok
      · rw [if_neg hb] at hok ⊢
        exact ih _ _ (fsExists_fsInsert_self _ _ _) hok
    | streamError m => simp [runStream] at hok
    | timeout => simp [runStream] at hok

lemma downloadFile_ok_exists (env : Env) :
    ∀ (fuel : Nat) (url filepath : Str) (maxSizeMB : Nat) (fs : FS),
      (downloadFile env fuel url filepath maxSizeMB fs).1 = .ok () →
      fsExists (downloadFile env fuel url filepath maxSizeMB fs).2 filepath = true := by
  intro fuel
  induction fuel with
  | zero => intro url filepath mB fs h; simp [downloadFile] at h
  | succ n ih =>
    intro url filepath mB fs h
    cases hnet : env.net url with
    | none => simp only [downloadFile, hnet] at h; simp at h
    | some r =>
      by_cases hred : r.status = 301 ∨ r.status = 302
      · cases hloc : r.location with
        | none =>
          simp only [downloadFile, hnet, if_pos hred, hloc] at h
          simp at h
        | some loc =>
          simp only [downloadFile, hnet, if_pos hred, hloc] at h ⊢
          exact ih _ _ _ _ h
      · by_cases h200 : r.status ≠ 200
        · simp only [downloadFile, hnet, if_neg hred, if_pos h200] at h
          simp at h
        · by_cases hlen : mB * 1024 * 1024 < r.contentLength.getD 0
          · simp only [downloadFile, hnet, if_neg hred, if_neg h200, if_pos hlen] at h
            simp at h
          · simp only [downloadFile, hnet, if_neg hred, if_neg h200, if_neg hlen] at h ⊢
            exact runStream_ok_exists _ _ _ _ _ (fsExists_fsInsert_self _ _ _) h

lemma dae_preserves (env : Env) (url : Str) (maxSizeMB : Nat) (po : PageOptions)
    (st : St)
    (hc : fsExists st.fs (downloadDir ++ '/' :: urlFilename url) = true) :
    (downloadAndExtract env url maxSizeMB po st).2.fetches = st.fetches ∧
    fsExists (downloadAndExtract env url maxSizeMB po st).2.fs
      (downloadDir ++ '/' :: urlFilename url) = true := by
  rcases hE : downloadAndExtract env url maxSizeMB po st with ⟨r, st'⟩
  simp only [downloadAndExtract, hc, eq_self_iff_true, if_true] at hE
  by_cases hpdf : lowerStr (extnameC (urlFilename url)) = str ".pdf"
  · rw [if_pos hpdf] at hE
    rw [← hE]
    exact ⟨rfl, hc⟩
  · rw [if_neg hpdf] at hE
    by_cases hzip : lowerStr (extnameC (urlFilename url)) = str ".zip"
    · rw [if_pos hzip] at hE
      split at hE
      · rw [← hE]
        exact ⟨rfl, hc⟩
      · rename_i files fs2 heq
        rw [← hE]
        refine ⟨rfl, ?_⟩
        show fsExists fs2 (downloadDir ++ '/' :: urlFilename url) = true
        split at heq
        · simp only [extractZipM] at heq
          cases hz : env.unzip ((fsLookup st.fs
              (downloadDir ++ '/' :: urlFilename url)).getD []) with
          | error e => simp [hz] at heq
          | ok entries =>
            simp only [hz, Except.ok.injEq, Prod.mk.injEq] at heq
            rw [← heq.2]
            exact fsExists_foldl _ entries _ st.fs hc
        · simp only [Except.ok.injEq, Prod.mk.injEq] at heq
          rw [← heq.2]
          exact hc
    · rw [if_neg hzip] at hE
      by_cases htxt : ([str ".txt", str ".csv", str ".json", str ".xml",
          str ".html"].contains (lowerStr (extnameC (urlFilename url)))) = true
      · rw [if_pos htxt] at hE
        split at hE <;> (rw [← hE]; exact ⟨rfl, hc⟩)
      · rw [if_neg htxt] at hE
        rw [← hE]
        exact ⟨rfl, hc⟩

lemma dae_success_exists (env : Env) (url : Str) (maxSizeMB : Nat)
    (po : PageOptions) (st : St)
    (hs : (downloadAndExtract env url maxSizeMB po st).1.success = true) :
    fsExists (downloadAndExtract env url maxSizeMB po st).2.fs
      (downloadDir ++ '/' :: urlFilename url) = true := by
  by_cases hc : fsExists st.fs (downloadDir ++ '/' :: urlFilename url) = true
  · exact (dae_preserves env url maxSizeMB po st hc).2
  · rcases hE : downloadAndExtract env url maxSizeMB po st with ⟨r, st'⟩
    rw [hE] at hs
    simp only [downloadAndExtract] at hE
    rw [if_neg hc] at hE
    rcases hdl : downloadFile env redirectFuel url
        (downloadDir ++ '/' :: urlFilename url) maxSizeMB st.fs with ⟨res, fs'⟩
    rw [hdl] at hE
    cases res with
    | error e =>
      simp only [] at hE
      rw [← hE] at hs
      simp at hs
    | ok u =>
      cases u
      have hex : fsExists fs' (downloadDir ++ '/' :: urlFilename url) = true := by
        have h1 := downloadFile_ok_exists env redirectFuel url
          (downloadDir ++ '/' :: urlFilename url) maxSizeMB st.fs (by rw [hdl])
        rw [hdl] at h1
        exact h1
      simp only [] at hE
      by_cases hpdf : lowerStr (extnameC (urlFilename url)) = str ".pdf"
      · rw [if_pos hpdf] at hE
        rw [← hE]
        exact hex
      · rw [if_neg hpdf] at hE
        by_cases hzip : lowerStr (extnameC (urlFilename url)) = str ".zip"
        · rw [if_pos hzip] at hE
          split at hE
          · rw [← hE]
            exact hex
          · rename_i files fs2 heq
            rw [← hE]
            show fsExists fs2 (downloadDir ++ '/' :: urlFilename url) = true
            split at heq
            · simp only [extractZipM] at heq
              cases hz : env.unzip ((fsLookup fs'
                  (downloadDir ++ '/' :: urlFilename url)).getD []) with
              | error e => simp [hz] at heq
              | ok entries =>
                simp only [hz, Except.ok.injEq, Prod.mk.injEq] at heq
                rw [← heq.2]
                exact fsExists_foldl _ entries _ fs' hex
            · simp only [Except.ok.injEq, Prod.mk.injEq] at heq
              rw [← heq.2]
              exact hex
        · rw [if_neg hzip] at hE
          by_cases htxt : ([str ".txt", str ".csv", str ".json", str ".xml",
              str ".html"].contains (lowerStr (extnameC (urlFilename url)))) = true
          · rw [if_pos htxt] at hE
            split at hE <;> (rw [← hE]; exact hex)
          · rw [if_neg htxt] at hE
            rw [← hE]
            exact hex

lemma rdp_state (env : Env) (filename url : Option Str) (po : PageOptions)
    (maxSizeMB : Nat) (st : St) :
    (readDocumentPages env filename url po maxSizeMB st).2 =
      (resolveDoc env filename url maxSizeMB st).2 := by
  rcases h : resolveDoc env filename url maxSizeMB st with ⟨r, st'⟩
  cases r with
  | error e => simp [readDocumentPages, h]
  | ok p =>
    simp only [readDocumentPages, h]
    by_cases hx : lowerStr (extnameC p) ≠ str ".pdf"
    · rw [if_pos hx]
    · rw [if_neg hx]
      cases hl : fsLookup st'.fs p <;> simp

lemma resolveDoc_stable (env : Env) (filename url : Option Str) (maxSizeMB : Nat)
    (st : St) (p : Str) (st2 : St)
    (h : resolveDoc env filename url maxSizeMB st = (.ok p, st2)) :
    (resolveDoc env filename url maxSizeMB st2).2.fetches = st2.fetches := by
  cases hf : optTruthyS filename with
  | some f =>
    simp only [resolveDoc, hf] at h ⊢
    by_cases h1 : fsExists st.fs (downloadDir ++ '/' :: f) = true
    · rw [if_pos h1] at h
      rw [Prod.mk.injEq] at h
      obtain ⟨-, hst⟩ := h
      subst hst
      rw [if_pos h1]
    · rw [if_neg h1] at h
      cases hfl : (getAllFilesFS st.fs downloadDir).filter
          (fun q => basenameC q == f) with
      | cons q qs =>
        simp only [hfl] at h
        rw [Prod.mk.injEq] at h
        obtain ⟨-, hst⟩ := h
        subst hst
        rw [if_neg h1]
        simp only [hfl]
      | nil =>
        simp only [hfl] at h
        cases hu : optTruthyS url with
        | none => simp only [hu] at h; simp at h
        | some u =>
          simp only [hu] at h
          rcases hdl : downloadFile env redirectFuel u (downloadDir ++ '/' :: f)
              maxSizeMB st.fs with ⟨res, fs'⟩
          rw [hdl] at h
          cases res with
          | error e => simp only [] at h; simp at h
          | ok u' =>
            cases u'
            simp only [] at h
            rw [Prod.mk.injEq] at h
            obtain ⟨-, hst⟩ := h
            have hex : fsExists fs' (downloadDir ++ '/' :: f) = true := by
              have h2 := downloadFile_ok_exists env redirectFuel u
                (downloadDir ++ '/' :: f) maxSizeMB st.fs (by rw [hdl])
              rw [hdl] at h2
              exact h2
            rw [← hst]
            simp [hex]
  | none =>
    cases hu : optTruthyS url with
    | none => simp only [resolveDoc, hf, hu] at h; simp at h
    | some u =>
      simp only [resolveDoc, hf, hu] at h ⊢
      by_cases h1 : fsExists st.fs (downloadDir ++ '/' :: urlFilename u) = true
      · rw [if_pos h1] at h
        rw [Prod.mk.injEq] at h
        obtain ⟨-, hst⟩ := h
        subst hst
        rw [if_pos h1]
      · rw [if_neg h1] at h
        rcases hdl : downloadFile env redirectFuel u
            (downloadDir ++ '/' :: urlFilename u) maxSizeMB st.fs with ⟨res, fs'⟩
        rw [hdl] at h
        cases res with
        | error e => simp only [] at h; simp at h
        | ok u' =>
          cases u'
          simp only [] at h
          rw [Prod.mk.injEq] at h
          obtain ⟨-, hst⟩ := h
          have hex : fsExists fs' (downloadDir ++ '/' :: urlFilename u) = true := by
            have h2 := downloadFile_ok_exists env redirectFuel u
              (downloadDir ++ '/' :: urlFilename u) maxSizeMB st.fs (by rw [hdl])
            rw [hdl] at h2
            exact h2
          rw [← hst]
          simp [hex]

/-- C2: the cache short-circuits the Fetcher.  (i) `downloadAndExtract` on a
URL whose derived destination path is already on disk performs no fetch
(the fetch counter is unchanged); (ii) after a successful first call, a
second identical call performs no fetch; (iii)/(iv) `readDocumentPages`
with a cached filename (resp. a URL whose derived path is cached) performs
no fetch; (v) after a first call that resolves a file, a second identical
call performs no fetch — so two sequential calls perform at most one
download. -/
theorem cache_short_circuit :
    (∀ (env : Env) (url : Str) (maxSizeMB : Nat) (po : PageOptions) (st : St),
      fsExists st.fs (downloadDir ++ '/' :: urlFilename url) = true →
      (downloadAndExtract env url maxSizeMB po st).2.fetches = st.fetches) ∧
    (∀ (env : Env) (url : Str) (maxSizeMB : Nat) (po : PageOptions) (st : St),
      (downloadAndExtract env url maxSizeMB po st).1.success = true →
      (downloadAndExtract env url maxSizeMB po
          (downloadAndExtract env url maxSizeMB po st).2).2.fetches
        = (downloadAndExtract env url maxSizeMB po st).2.fetches) ∧
    (∀ (env : Env) (filename url : Option Str) (maxSizeMB : Nat)
        (po : PageOptions) (st : St) (f : Str),
      optTruthyS filename = some f →
      fsExists st.fs (downloadDir ++ '/' :: f) = true →
      (readDocumentPages env filename url po maxSizeMB st).2.fetches = st.fetches) ∧
    (∀ (env : Env) (url : Option Str) (maxSizeMB : Nat) (po : PageOptions)
        (st : St) (u : Str),
      optTruthyS url = some u →
      fsExists st.fs (downloadDir ++ '/' :: urlFilename u) = true →
      (readDocumentPages env none url po maxSizeMB st).2.fetches = st.fetches) ∧
    (∀ (env : Env) (filename url : Option Str) (maxSizeMB : Nat)
        (po : PageOptions) (st : St) (p : Str) (st2 : St),
      resolveDoc env filename url maxSizeMB st = (.ok p, st2) →
      (readDocumentPages env filename url po maxSizeMB
          (readDocumentPages env filename url po maxSizeMB st).2).2.fetches
        = (readDocumentPages env filename url po maxSizeMB st).2.fetches) := by
  refine ⟨?_, ?_, ?_, ?_, ?_⟩
  · intro env url maxSizeMB po st hc
    exact (dae_preserves env url maxSizeMB po st hc).1
  · intro env url maxSizeMB po st hs
    exact (dae_preserves env url maxSizeMB po
      (downloadAndExtract env url maxSizeMB po st).2
      (dae_success_exists env url maxSizeMB po st hs)).1
  · intro env filename url maxSizeMB po st f hf hc
    have hres : resolveDoc env filename url maxSizeMB st =
        (.ok (downloadDir ++ '/' :: f), st) := by
      simp only [resolveDoc, hf, hc, eq_self_iff_true, if_true]
    rw [rdp_state env filename url po maxSizeMB st, hres]
  · intro env url maxSizeMB po st u hu hc
    have h0 : optTruthyS (none : Option Str) = none := rfl
    have hres : resolveDoc env none url maxSizeMB st =
        (.ok (downloadDir ++ '/' :: urlFilename u), st) := by
      simp only [resolveDoc, h0, hu, hc, eq_self_iff_true, if_true]
    rw [rdp_state env none url po maxSizeMB st, hres]
  · intro env filename url maxSizeMB po st p st2 hres
    have h1 : (readDocumentPages env filename url po maxSizeMB st).2 = st2 := by
      rw [rdp_state env filename url po maxSizeMB st, hres]
    rw [h1, rdp_state env filename url po maxSizeMB st2]
    exact resolveDoc_stable env filename url maxSizeMB st p st2 hres

theorem cache_short_circuit_witness :
    fsExists st9.fs (downloadDir ++ '/' :: str "a.pdf") = true ∧
    optTruthyS (some (str "a.pdf")) = some (str "a.pdf") ∧
    (readDocumentPages env9 (some (str "a.pdf")) none {} 50 st9).2.fetches
      = st9.fetches ∧
    fsExists st10.fs (downloadDir ++ '/' :: urlFilename (str "https://h/a.txt")) = true ∧
    (downloadAndExtract env10 (str "https://h/a.txt") 50 {} st10).2.fetches
      = st10.fetches :=
  ⟨by decide, rfl,
    cache_short_circuit.2.2.1 env9 (some (str "a.pdf")) none 50 {} st9
      (str "a.pdf") rfl (by decide),
    by decide,
    cache_short_circuit.1 env10 (str "https://h/a.txt") 50 {} st10 (by decide)⟩
